import Mathlib

/-!
# Verification of `puzzle_solver.go`

A shallow embedding of the backtracking search of `src/puzzle_solver.go`
(functions `sumInts`, `backtrack`, and the decision path of `solvePuzzle`)
together with theorems about it.

Modelling conventions.

* `Grid` is Go's `[][]int`, here `List (List Int)`.  The Go code mutates the
  grid in place; the embedding passes the grid through and returns the grid left
  behind together with the verdict.
* Go `int` is modelled by `Int`, without wrap-around.  A search started at
  `(0, 0)` reads a cell only after it has stored a value of `0..3` there, so
  every sum it forms ranges over at most `max R C` values of `0..3`, and the
  bounds it adds are `3 * (C - col)` and `3 * (R - row)`: 64-bit wrap-around
  cannot occur for any grid that fits in memory.  The targets themselves are
  only compared, never added to, inside `backtrack`.  For a call at another
  cursor, on a grid that holds arbitrary integers before the cursor, the sums of
  the model are those of Go as long as they fit in an `int`.
* Line 44 of `solvePuzzle` adds up the targets the user typed, which can be any
  `int`: there the 64-bit wrap-around of every addition is modelled
  (`sumInts64`, `wrapInt`).
* A slice index out of range is Go's run-time panic; the embedding returns
  `Except.error Fault.indexOutOfRange` at exactly the indexing operations of the
  source.
* Recursion is bounded by a `fuel : Nat` argument which counts the stack frames
  still available: `backtrack 0 ..` is `Fault.stackExhausted`, and every nested
  call gets one unit less.  The cursor `(row, col)` starts at `(0, 0)` and is
  only ever incremented, so it is a pair of naturals.
-/

namespace PuzzleSolver

/-- Go: `type Grid [][]int`. -/
abbrev Grid := List (List Int)

/-- The two ways a run of the embedded code can fail to return. -/
inductive Fault where
  | indexOutOfRange
  | stackExhausted
deriving DecidableEq, Repr

/-- Slice indexing `s[i]`, panicking when `i` is out of range. -/
def index {α : Type} (s : List α) (i : Nat) : Except Fault α :=
  match s[i]? with
  | some v => Except.ok v
  | none => Except.error Fault.indexOutOfRange

/-- The assignment `grid[row][col] = val`. -/
def setCell (grid : Grid) (row col : Nat) (val : Int) : Except Fault Grid :=
  match grid[row]? with
  | none => Except.error Fault.indexOutOfRange
  | some r =>
    if col < r.length then Except.ok (grid.set row (r.set col val))
    else Except.error Fault.indexOutOfRange

/-- Go `sumInts`: `sum := 0; for _, v := range slice { sum += v }`, as the exact
sum: what the function returns when the sum fits in an `int`, as it does for
the rows of stored values `backtrack` passes at line 121. -/
def sumInts (slice : List Int) : Int :=
  slice.foldl (fun sum v => sum + v) 0

/-- The value a 64-bit Go `int` holds after an arithmetic result `x`:
two's-complement wrap-around into `-2^63 .. 2^63-1`. -/
def wrapInt (x : Int) : Int :=
  (x + 9223372036854775808) % 18446744073709551616 - 9223372036854775808

/-- The integer `x` is a value of a 64-bit Go `int`. -/
def FitsInt (x : Int) : Prop :=
  -9223372036854775808 ≤ x ∧ x < 9223372036854775808

instance (x : Int) : Decidable (FitsInt x) := by
  unfold FitsInt; infer_instance

/-- Go `sumInts` on 64-bit `int`s, every `sum += v` wrapping around. -/
def sumInts64 (slice : List Int) : Int :=
  slice.foldl (fun sum v => wrapInt (sum + v)) 0

/-- The loop `partialRow := 0; for c := 0; c < col; c++ { partialRow += grid[row][c] }`
(lines 129-132); the last argument is `col`. -/
def partialRowSum (grid : Grid) (row : Nat) : Nat → Except Fault Int
  | 0 => Except.ok 0
  | c + 1 =>
    (partialRowSum grid row c).bind fun partialRow =>
    (index grid row).bind fun r =>
    (index r c).bind fun v =>
    Except.ok (partialRow + v)

/-- The loop `s := 0; for r := 0; r < n; r++ { s += grid[r][col] }`, which the
source runs as `colSum` (lines 108-111, `n = numRows`) and as `partialCol`
(lines 138-141, `n = row`); the last argument is `n`. -/
def partialColSum (grid : Grid) (col : Nat) : Nat → Except Fault Int
  | 0 => Except.ok 0
  | r + 1 =>
    (partialColSum grid col r).bind fun partialCol =>
    (index grid r).bind fun gr =>
    (index gr col).bind fun v =>
    Except.ok (partialCol + v)

/-- The loop of lines 107-116, from column `c` with `n` columns still to check:
`for ; c < numCols; c++ { colSum := ...; if colSum != colSums[c] { return false } }; return true`. -/
def checkColSums (grid : Grid) (colSums : List Int) (numRows : Nat) : Nat → Nat → Except Fault Bool
  | _, 0 => Except.ok true
  | c, n + 1 =>
    (partialColSum grid c numRows).bind fun colSum =>
    (index colSums c).bind fun target =>
    if colSum ≠ target then Except.ok false
    else checkColSums grid colSums numRows (c + 1) n

/-- The loop of lines 152-158 with `n` iterations left, the next candidate being
`val`; `recurse` is the call `backtrack(grid, rowSums, colSums, forcedBlanks, row, col+1)`. -/
def tryVals (recurse : Grid → Except Fault (Bool × Grid)) (row col : Nat) :
    Nat → Int → Grid → Except Fault (Bool × Grid)
  | 0, _, grid => Except.ok (false, grid)
  | n + 1, val, grid =>
    (setCell grid row col val).bind fun g1 =>
    (recurse g1).bind fun res =>
    if res.1 then Except.ok (true, res.2)
    else
      (setCell res.2 row col 0).bind fun g2 =>
      tryVals recurse row col n (val + 1) g2

/-- Go `backtrack` (lines 101-160).  The result is the returned boolean and the
grid as the call leaves it. -/
def backtrack : Nat → Grid → List Int → List Int → List (List Bool) → Nat → Nat →
    Except Fault (Bool × Grid)
  | 0, _, _, _, _, _, _ => Except.error Fault.stackExhausted
  | fuel + 1, grid, rowSums, colSums, forcedBlanks, row, col =>
    let numRows := grid.length
    (index grid 0).bind fun row0 =>
    let numCols := row0.length
    if row = numRows then
      -- End of grid: check column sums
      (checkColSums grid colSums numRows 0 numCols).bind fun ok =>
      Except.ok (ok, grid)
    else if col = numCols then
      -- End of row: check row sum and move to next row
      (index grid row).bind fun r =>
      let rowSum := sumInts r
      (index rowSums row).bind fun rowTarget =>
      if rowSum ≠ rowTarget then Except.ok (false, grid)
      else backtrack fuel grid rowSums colSums forcedBlanks (row + 1) 0
    else
      -- Compute partial row and col sums
      (partialRowSum grid row col).bind fun partialRow =>
      let maxRemainingRow : Int := ((numCols : Int) - (col : Int)) * 3
      (index rowSums row).bind fun rowTarget =>
      if partialRow > rowTarget ∨ partialRow + maxRemainingRow < rowTarget then
        Except.ok (false, grid)
      else
        (partialColSum grid col row).bind fun partialCol =>
        let maxRemainingCol : Int := ((numRows : Int) - (row : Int)) * 3
        (index colSums col).bind fun colTarget =>
        if partialCol > colTarget ∨ partialCol + maxRemainingCol < colTarget then
          Except.ok (false, grid)
        else
          -- Try values 0-3 (or only 0 if forced)
          (index forcedBlanks row).bind fun fr =>
          (index fr col).bind fun forced =>
          let minVal : Int := 0
          let maxVal : Int := if forced then 0 else 3
          tryVals (fun g => backtrack fuel g rowSums colSums forcedBlanks row (col + 1))
            row col (maxVal + 1 - minVal).toNat minVal grid

/-! ## The search with a log of its assignments -/

/-- One executed assignment `grid[row][col] = val`. -/
structure Write where
  row : Nat
  col : Nat
  val : Int
deriving DecidableEq, Repr

/-- The loop `tryVals`, also returning the assignments executed, in order. -/
def tryValsLog (recurse : Grid → Except Fault (Bool × Grid × List Write)) (row col : Nat) :
    Nat → Int → Grid → Except Fault (Bool × Grid × List Write)
  | 0, _, grid => Except.ok (false, grid, [])
  | n + 1, val, grid =>
    (setCell grid row col val).bind fun g1 =>
    (recurse g1).bind fun res =>
    if res.1 then Except.ok (true, res.2.1, Write.mk row col val :: res.2.2)
    else
      (setCell res.2.1 row col 0).bind fun g2 =>
      (tryValsLog recurse row col n (val + 1) g2).bind fun rest =>
      Except.ok (rest.1, rest.2.1,
        Write.mk row col val :: (res.2.2 ++ Write.mk row col 0 :: rest.2.2))

/-- The function `backtrack`, also returning the assignments executed, in order. -/
def backtrackLog : Nat → Grid → List Int → List Int → List (List Bool) → Nat → Nat →
    Except Fault (Bool × Grid × List Write)
  | 0, _, _, _, _, _, _ => Except.error Fault.stackExhausted
  | fuel + 1, grid, rowSums, colSums, forcedBlanks, row, col =>
    let numRows := grid.length
    (index grid 0).bind fun row0 =>
    let numCols := row0.length
    if row = numRows then
      (checkColSums grid colSums numRows 0 numCols).bind fun ok =>
      Except.ok (ok, grid, [])
    else if col = numCols then
      (index grid row).bind fun r =>
      let rowSum := sumInts r
      (index rowSums row).bind fun rowTarget =>
      if rowSum ≠ rowTarget then Except.ok (false, grid, [])
      else backtrackLog fuel grid rowSums colSums forcedBlanks (row + 1) 0
    else
      (partialRowSum grid row col).bind fun partialRow =>
      let maxRemainingRow : Int := ((numCols : Int) - (col : Int)) * 3
      (index rowSums row).bind fun rowTarget =>
      if partialRow > rowTarget ∨ partialRow + maxRemainingRow < rowTarget then
        Except.ok (false, grid, [])
      else
        (partialColSum grid col row).bind fun partialCol =>
        let maxRemainingCol : Int := ((numRows : Int) - (row : Int)) * 3
        (index colSums col).bind fun colTarget =>
        if partialCol > colTarget ∨ partialCol + maxRemainingCol < colTarget then
          Except.ok (false, grid, [])
        else
          (index forcedBlanks row).bind fun fr =>
          (index fr col).bind fun forced =>
          let minVal : Int := 0
          let maxVal : Int := if forced then 0 else 3
          tryValsLog (fun g => backtrackLog fuel g rowSums colSums forcedBlanks row (col + 1))
            row col (maxVal + 1 - minVal).toNat minVal grid

/-- Forgets the log of a result. -/
def eraseLog (x : Except Fault (Bool × Grid × List Write)) : Except Fault (Bool × Grid) :=
  match x with
  | Except.error f => Except.error f
  | Except.ok res => Except.ok (res.1, res.2.1)

/-- Every assignment logged by a returning run satisfies `P`. -/
def AllWrites (P : Write → Prop) (x : Except Fault (Bool × Grid × List Write)) : Prop :=
  match x with
  | Except.error _ => True
  | Except.ok res => ∀ w ∈ res.2.2, P w

/-! ## Vocabulary of the statements -/

/-- The value of `grid[r][c]`, read as 0 outside the grid. -/
def cell (g : Grid) (r c : Nat) : Int :=
  (g.getD r []).getD c 0

/-- The value of `forcedBlanks[r][c]`, read as `false` outside the mask. -/
def forcedAt (fb : List (List Bool)) (r c : Nat) : Bool :=
  (fb.getD r []).getD c false

/-- A slice of `R` slices of `C` elements each. -/
def Shape {α : Type} (g : List (List α)) (R C : Nat) : Prop :=
  g.length = R ∧ ∀ row ∈ g, row.length = C

instance {α : Type} (g : List (List α)) (R C : Nat) : Decidable (Shape g R C) := by
  unfold Shape; infer_instance

/-- The grid `solvePuzzle` allocates (lines 67-70): `R` rows of `C` zeros. -/
def zeroGrid (R C : Nat) : Grid :=
  List.replicate R (List.replicate C 0)

/-- The preconditions on an instance: at least one row, and a mask with one row
per row sum and one entry per column sum in every row. -/
def ShapeValid (rowSums colSums : List Int) (forcedBlanks : List (List Bool)) : Prop :=
  0 < rowSums.length ∧ Shape forcedBlanks rowSums.length colSums.length

instance (rowSums colSums : List Int) (forcedBlanks : List (List Bool)) :
    Decidable (ShapeValid rowSums colSums forcedBlanks) := by
  unfold ShapeValid; infer_instance

/-- Sum of row `r` of the grid. -/
def rowSum (g : Grid) (r : Nat) : Int :=
  (g.getD r []).sum

/-- Sum of column `c` of the grid. -/
def colSum (g : Grid) (c : Nat) : Int :=
  (g.map fun row => row.getD c 0).sum

/-- Cell `(r, c)` comes strictly before the cursor `(row, col)` in row-major order. -/
def Before (r c row col : Nat) : Prop :=
  r < row ∨ (r = row ∧ c < col)

instance (r c row col : Nat) : Decidable (Before r c row col) := by
  unfold Before; infer_instance

/-- The value `v` is in the domain of cell `(r, c)`: `{0}` if the cell is forced,
`{0,1,2,3}` otherwise. -/
def CellOk (fb : List (List Bool)) (r c : Nat) (v : Int) : Prop :=
  0 ≤ v ∧ v ≤ 3 ∧ (forcedAt fb r c = true → v = 0)

instance (fb : List (List Bool)) (r c : Nat) (v : Int) : Decidable (CellOk fb r c v) := by
  unfold CellOk; infer_instance

/-- Grid `s` is a valid assignment from the cursor `(row, col)` on: it has the
instance's shape, every cell at or after the cursor holds a value of its domain,
every row from `row` on has its target sum and every column has its target sum. -/
def SolutionFrom (rowSums colSums : List Int) (forcedBlanks : List (List Bool))
    (row col : Nat) (s : Grid) : Prop :=
  Shape s rowSums.length colSums.length ∧
  (∀ r < rowSums.length, ∀ c < colSums.length,
      ¬ Before r c row col → CellOk forcedBlanks r c (cell s r c)) ∧
  (∀ r < rowSums.length, row ≤ r → rowSum s r = rowSums.getD r 0) ∧
  (∀ c < colSums.length, colSum s c = colSums.getD c 0)

/-- Grid `s` is a valid solution of the instance: right shape, all values in
`0..3`, forced cells 0, all row and column sums matching. -/
def ValidSolution (rowSums colSums : List Int) (forcedBlanks : List (List Bool))
    (s : Grid) : Prop :=
  Shape s rowSums.length colSums.length ∧
  (∀ r < rowSums.length, ∀ c < colSums.length, CellOk forcedBlanks r c (cell s r c)) ∧
  (∀ r < rowSums.length, rowSum s r = rowSums.getD r 0) ∧
  (∀ c < colSums.length, colSum s c = colSums.getD c 0)

instance (rowSums colSums : List Int) (forcedBlanks : List (List Bool)) (s : Grid) :
    Decidable (ValidSolution rowSums colSums forcedBlanks s) := by
  unfold ValidSolution; infer_instance

/-- Grids `g` and `s` hold the same values at every cell before the cursor. -/
def AgreeBefore (R C : Nat) (row col : Nat) (g s : Grid) : Prop :=
  ∀ r < R, ∀ c < C, Before r c row col → cell s r c = cell g r c

/-- Every cell of `g2` holds what it holds in `g1`, or 0. -/
def SameOrZero (R C : Nat) (g1 g2 : Grid) : Prop :=
  ∀ r < R, ∀ c < C, cell g2 r c = cell g1 r c ∨ cell g2 r c = 0

/-- Row-major lexicographic order on grids of one shape, cell by cell: the grids
are equal, or at the first cell where they differ `g` holds the smaller value. -/
def LexLE (R C : Nat) (g s : Grid) : Prop :=
  g = s ∨ ∃ r < R, ∃ c < C,
    (∀ r2 < R, ∀ c2 < C, Before r2 c2 r c → cell g r2 c2 = cell s r2 c2) ∧
    cell g r c < cell s r c

/-- Stack frames a call at cursor `(row, col)` of an `R×C` instance may need:
one per remaining cursor position up to and including the end-of-grid call. -/
def framesNeeded (R C row col : Nat) : Nat :=
  if R ≤ row then 1 else (R - 1 - row) * (C + 1) + (C - col) + 2

/-- What a call `backtrack(grid, .., row, col)` on grid `g` guarantees about its
verdict `b` and the grid `g2` it leaves. -/
def Post (rowSums colSums : List Int) (forcedBlanks : List (List Bool))
    (row col : Nat) (g : Grid) (b : Bool) (g2 : Grid) : Prop :=
  Shape g2 rowSums.length colSums.length ∧
  AgreeBefore rowSums.length colSums.length row col g g2 ∧
  (b = true →
    SolutionFrom rowSums colSums forcedBlanks row col g2 ∧
    ∀ s, AgreeBefore rowSums.length colSums.length row col g s →
      SolutionFrom rowSums colSums forcedBlanks row col s →
      LexLE rowSums.length colSums.length g2 s) ∧
  (b = false →
    (∀ s, AgreeBefore rowSums.length colSums.length row col g s →
      ¬ SolutionFrom rowSums colSums forcedBlanks row col s) ∧
    SameOrZero rowSums.length colSums.length g g2)

/-- The grid after `grid[row][col] = val`, for an index in range. -/
def putCell (g : Grid) (row col : Nat) (val : Int) : Grid :=
  g.set row ((g.getD row []).set col val)

/-! ## The caller -/

/-- How a run of `solvePuzzle` ends. -/
inductive Outcome where
  /-- Lines 44-47: the totals differ; the function returns before reading any pattern. -/
  | sumMismatch
  /-- Lines 54-57: a pattern's length differs from the number of columns. -/
  | patternMismatch
  /-- Lines 74-77: `backtrack` returned false. -/
  | noSolution
  /-- Lines 79-97: `backtrack` returned true and the function goes on to print the grid. -/
  | solved (grid : Grid)
  /-- The call of `backtrack` did not return. -/
  | crashed (f : Fault)
deriving DecidableEq

/-- Lines 58-63: the mask row of one pattern, given as the bytes of the line
`readLine` returned; byte 77 is `'M'`. -/
def patternRow (pattern : List Nat) : List Bool :=
  pattern.map fun ch => decide (ch = 77)

/-- The loop of lines 50-64 with `n` rows still to read from the remaining input
lines (a missing line reads as the empty string); `none` when a pattern has the
wrong length. -/
def readForcedBlanks (numCols : Nat) : Nat → List (List Nat) → Option (List (List Bool))
  | 0, _ => some []
  | n + 1, input =>
    let pattern := input.headD []
    if pattern.length ≠ numCols then none
    else (readForcedBlanks numCols n input.tail).map fun rest => patternRow pattern :: rest

/-- Go `solvePuzzle` (lines 32-98) as a function of what it reads: the parsed
column sums, the parsed row sums and the pattern lines.  The two totals of line
44 are formed as Go forms them, with 64-bit wrap-around.  The outcome records
which branch the function takes; what lines 79-97 print is not modelled. -/
def solvePuzzle (fuel : Nat) (colSums rowSums : List Int) (patterns : List (List Nat)) :
    Outcome :=
  let numCols := colSums.length
  let numRows := rowSums.length
  if sumInts64 rowSums ≠ sumInts64 colSums then Outcome.sumMismatch
  else
    match readForcedBlanks numCols numRows patterns with
    | none => Outcome.patternMismatch
    | some forcedBlanks =>
      match backtrack fuel (zeroGrid numRows numCols) rowSums colSums forcedBlanks 0 0 with
      | Except.error f => Outcome.crashed f
      | Except.ok (false, _) => Outcome.noSolution
      | Except.ok (true, grid) => Outcome.solved grid

/-! ## Variants of the search -/

/-- The function `backtrack` with pruning disabled: lines 128-145 (the two partial
sums and the two bound checks on them) are left out, everything else is as in
`backtrack`. -/
def backtrackNoPrune : Nat → Grid → List Int → List Int → List (List Bool) → Nat → Nat →
    Except Fault (Bool × Grid)
  | 0, _, _, _, _, _, _ => Except.error Fault.stackExhausted
  | fuel + 1, grid, rowSums, colSums, forcedBlanks, row, col =>
    let numRows := grid.length
    (index grid 0).bind fun row0 =>
    let numCols := row0.length
    if row = numRows then
      (checkColSums grid colSums numRows 0 numCols).bind fun ok =>
      Except.ok (ok, grid)
    else if col = numCols then
      (index grid row).bind fun r =>
      let rowSum := sumInts r
      (index rowSums row).bind fun rowTarget =>
      if rowSum ≠ rowTarget then Except.ok (false, grid)
      else backtrackNoPrune fuel grid rowSums colSums forcedBlanks (row + 1) 0
    else
      (index forcedBlanks row).bind fun fr =>
      (index fr col).bind fun forced =>
      let minVal : Int := 0
      let maxVal : Int := if forced then 0 else 3
      tryVals (fun g => backtrackNoPrune fuel g rowSums colSums forcedBlanks row (col + 1))
        row col (maxVal + 1 - minVal).toNat minVal grid

/-- The loop `tryVals` without the statement `grid[row][col] = 0` of line 157:
after a failed recursive call the next candidate is tried on the grid as that
call left it. -/
def tryValsNoReset (recurse : Grid → Except Fault (Bool × Grid)) (row col : Nat) :
    Nat → Int → Grid → Except Fault (Bool × Grid)
  | 0, _, grid => Except.ok (false, grid)
  | n + 1, val, grid =>
    (setCell grid row col val).bind fun g1 =>
    (recurse g1).bind fun res =>
    if res.1 then Except.ok (true, res.2)
    else tryValsNoReset recurse row col n (val + 1) res.2

/-- The function `backtrack` without the reset of line 157, everything else as in
`backtrack`. -/
def backtrackNoReset : Nat → Grid → List Int → List Int → List (List Bool) → Nat → Nat →
    Except Fault (Bool × Grid)
  | 0, _, _, _, _, _, _ => Except.error Fault.stackExhausted
  | fuel + 1, grid, rowSums, colSums, forcedBlanks, row, col =>
    let numRows := grid.length
    (index grid 0).bind fun row0 =>
    let numCols := row0.length
    if row = numRows then
      (checkColSums grid colSums numRows 0 numCols).bind fun ok =>
      Except.ok (ok, grid)
    else if col = numCols then
      (index grid row).bind fun r =>
      let rowSum := sumInts r
      (index rowSums row).bind fun rowTarget =>
      if rowSum ≠ rowTarget then Except.ok (false, grid)
      else backtrackNoReset fuel grid rowSums colSums forcedBlanks (row + 1) 0
    else
      (partialRowSum grid row col).bind fun partialRow =>
      let maxRemainingRow : Int := ((numCols : Int) - (col : Int)) * 3
      (index rowSums row).bind fun rowTarget =>
      if partialRow > rowTarget ∨ partialRow + maxRemainingRow < rowTarget then
        Except.ok (false, grid)
      else
        (partialColSum grid col row).bind fun partialCol =>
        let maxRemainingCol : Int := ((numRows : Int) - (row : Int)) * 3
        (index colSums col).bind fun colTarget =>
        if partialCol > colTarget ∨ partialCol + maxRemainingCol < colTarget then
          Except.ok (false, grid)
        else
          (index forcedBlanks row).bind fun fr =>
          (index fr col).bind fun forced =>
          let minVal : Int := 0
          let maxVal : Int := if forced then 0 else 3
          tryValsNoReset
            (fun g => backtrackNoReset fuel g rowSums colSums forcedBlanks row (col + 1))
            row col (maxVal + 1 - minVal).toNat minVal grid

/-- The part of `Post` that fixes the verdict and the solved grid: everything
but the statement on what a failed call leaves in the cells it visited. -/
def PostVerdict (rowSums colSums : List Int) (forcedBlanks : List (List Bool))
    (row col : Nat) (g : Grid) (b : Bool) (g2 : Grid) : Prop :=
  Shape g2 rowSums.length colSums.length ∧
  AgreeBefore rowSums.length colSums.length row col g g2 ∧
  (b = true →
    SolutionFrom rowSums colSums forcedBlanks row col g2 ∧
    ∀ s, AgreeBefore rowSums.length colSums.length row col g s →
      SolutionFrom rowSums colSums forcedBlanks row col s →
      LexLE rowSums.length colSums.length g2 s) ∧
  (b = false →
    ∀ s, AgreeBefore rowSums.length colSums.length row col g s →
      ¬ SolutionFrom rowSums colSums forcedBlanks row col s)

/-- A run of `backtrack` from cursor `(row, col)` has at most `n` calls active
at any one time: given `n` stack frames it does not run out of them. -/
def DepthAtMost (n : Nat) (grid : Grid) (rowSums colSums : List Int)
    (forcedBlanks : List (List Bool)) (row col : Nat) : Prop :=
  backtrack n grid rowSums colSums forcedBlanks row col ≠ Except.error Fault.stackExhausted

/-! ## Slices and sums -/

theorem index_of_lt {α : Type} (s : List α) (i : Nat) (d : α) (h : i < s.length) :
    index s i = Except.ok (s.getD i d) := by
  simp [index, List.getD_eq_getElem?_getD, List.getElem?_eq_getElem h]

theorem shape_row {α : Type} {g : List (List α)} {R C : Nat} (hg : Shape g R C)
    {r : Nat} (hr : r < R) : (g.getD r []).length = C := by
  obtain ⟨hl, hrow⟩ := hg
  have h : r < g.length := by omega
  rw [List.getD_eq_getElem _ _ h]
  exact hrow _ (List.getElem_mem _)

theorem index_row {α : Type} {g : List (List α)} {R C : Nat} (hg : Shape g R C)
    {r : Nat} (hr : r < R) : index g r = Except.ok (g.getD r []) :=
  index_of_lt g r [] (by rw [hg.1]; exact hr)

theorem index_cell {g : Grid} {R C : Nat} (hg : Shape g R C) {r c : Nat}
    (hr : r < R) (hc : c < C) : index (g.getD r []) c = Except.ok (cell g r c) :=
  index_of_lt _ c 0 (by rw [shape_row hg hr]; exact hc)

theorem sumInts_eq_sum (l : List Int) : sumInts l = l.sum := by
  unfold sumInts
  rw [List.sum_eq_foldl]

theorem list_sum_eq_range (l : List Int) :
    l.sum = ∑ i ∈ Finset.range l.length, l.getD i 0 := by
  induction l with
  | nil => simp
  | cons a t ih =>
    rw [List.sum_cons, List.length_cons, Finset.sum_range_succ', ih]
    simp [add_comm]

theorem rowSum_eq {g : Grid} {R C : Nat} (hg : Shape g R C) {r : Nat} (hr : r < R) :
    rowSum g r = ∑ c ∈ Finset.range C, cell g r c := by
  unfold rowSum cell
  rw [list_sum_eq_range, shape_row hg hr]

theorem colSum_eq {g : Grid} {R C : Nat} (hg : Shape g R C) (c : Nat) :
    colSum g c = ∑ r ∈ Finset.range R, cell g r c := by
  unfold colSum
  rw [list_sum_eq_range, List.length_map, hg.1]
  apply Finset.sum_congr rfl
  intro r hr
  have hr2 : r < g.length := by rw [hg.1]; exact Finset.mem_range.mp hr
  simp [cell, List.getD_eq_getElem?_getD, List.getElem?_eq_getElem hr2]

theorem partialRowSum_eq {g : Grid} {R C : Nat} (hg : Shape g R C) {row : Nat}
    (hr : row < R) : ∀ col, col ≤ C →
    partialRowSum g row col = Except.ok (∑ c ∈ Finset.range col, cell g row c)
  | 0, _ => by simp [partialRowSum]
  | col + 1, h => by
    have ih := partialRowSum_eq hg hr col (by omega)
    simp only [partialRowSum, ih, index_row hg hr, index_cell hg hr (show col < C by omega),
      Except.bind, Finset.sum_range_succ]

theorem partialColSum_eq {g : Grid} {R C : Nat} (hg : Shape g R C) {col : Nat}
    (hc : col < C) : ∀ n, n ≤ R →
    partialColSum g col n = Except.ok (∑ r ∈ Finset.range n, cell g r col)
  | 0, _ => by simp [partialColSum]
  | n + 1, h => by
    have ih := partialColSum_eq hg hc n (by omega)
    simp only [partialColSum, ih, index_row hg (show n < R by omega),
      index_cell hg (show n < R by omega) hc, Except.bind, Finset.sum_range_succ]

theorem checkColSums_eq {g : Grid} {R C : Nat} (hg : Shape g R C) (cs : List Int)
    (hcs : cs.length = C) : ∀ n c, c + n ≤ C →
    ∃ b, checkColSums g cs R c n = Except.ok b ∧
      (b = true ↔ ∀ c2, c ≤ c2 → c2 < c + n → colSum g c2 = cs.getD c2 0)
  | 0, c, _ => ⟨true, by simp [checkColSums], by simp; intro c2 h1 h2; omega⟩
  | n + 1, c, h => by
    have hc : c < C := by omega
    obtain ⟨b, hb, hiff⟩ := checkColSums_eq hg cs hcs n (c + 1) (by omega)
    simp only [checkColSums, partialColSum_eq hg hc R le_rfl,
      index_of_lt cs c 0 (by omega), Except.bind, ← colSum_eq hg c]
    by_cases heq : colSum g c = cs.getD c 0
    · refine ⟨b, by simp only [ne_eq, heq, not_true_eq_false, if_false]; exact hb, ?_⟩
      rw [hiff]
      constructor
      · intro h1 c2 h2 h3
        rcases Nat.eq_or_lt_of_le h2 with h4 | h4
        · rw [← h4]; exact heq
        · exact h1 c2 h4 (by omega)
      · intro h1 c2 h2 h3
        exact h1 c2 (by omega) (by omega)
    · refine ⟨false, by simp only [ne_eq, heq, not_false_eq_true, if_true], ?_⟩
      constructor
      · intro h1; cases h1
      · intro h1
        exact absurd (h1 c le_rfl (by omega)) heq

theorem setCell_eq {g : Grid} {R C : Nat} (hg : Shape g R C) {row col : Nat}
    (hr : row < R) (hc : col < C) (v : Int) :
    setCell g row col v = Except.ok (putCell g row col v) := by
  have h : row < g.length := by rw [hg.1]; exact hr
  have hl := shape_row hg hr
  rw [List.getD_eq_getElem _ _ h] at hl
  unfold setCell putCell
  rw [List.getElem?_eq_getElem h, List.getD_eq_getElem _ _ h]
  simp only [hl, hc, if_true]

theorem shape_putCell {g : Grid} {R C : Nat} (hg : Shape g R C) {row col : Nat}
    (hr : row < R) (v : Int) : Shape (putCell g row col v) R C := by
  refine ⟨by simp [putCell, hg.1], ?_⟩
  intro x hx
  unfold putCell at hx
  rcases List.mem_or_eq_of_mem_set hx with h | h
  · exact hg.2 x h
  · rw [h, List.length_set]; exact shape_row hg hr

theorem cell_putCell {g : Grid} {R C : Nat} (hg : Shape g R C) {row col : Nat}
    (hr : row < R) (hc : col < C) (v : Int) (r c : Nat) :
    cell (putCell g row col v) r c = if r = row ∧ c = col then v else cell g r c := by
  have h : row < g.length := by rw [hg.1]; exact hr
  have hl := shape_row hg hr
  unfold cell putCell
  simp only [List.getD_eq_getElem?_getD, List.getElem?_set]
  by_cases h1 : row = r
  · subst h1
    simp only [if_true, h, Option.getD_some, true_and]
    by_cases h2 : col = c
    · subst h2
      have : col < (g[row]?.getD []).length := by
        rw [← List.getD_eq_getElem?_getD, hl]; exact hc
      simp [this]
    · have h3 : ¬ c = col := fun e => h2 e.symm
      simp [h2, h3]
  · have h3 : ¬ r = row := fun e => h1 e.symm
    simp [h1, h3]

theorem grid_ext {g s : Grid} {R C : Nat} (hg : Shape g R C) (hs : Shape s R C)
    (h : ∀ r < R, ∀ c < C, cell g r c = cell s r c) : g = s := by
  apply List.ext_getElem (by rw [hg.1, hs.1])
  intro r h1 h2
  have hr : r < R := by rw [← hg.1]; exact h1
  have e1 := shape_row hg hr
  have e2 := shape_row hs hr
  rw [List.getD_eq_getElem _ _ h1] at e1
  rw [List.getD_eq_getElem _ _ h2] at e2
  apply List.ext_getElem (by rw [e1, e2])
  intro c h3 h4
  have hc : c < C := by rw [← e1]; exact h3
  have := h r hr c hc
  unfold cell at this
  rw [List.getD_eq_getElem _ _ h1, List.getD_eq_getElem _ _ h2,
    List.getD_eq_getElem _ _ h3, List.getD_eq_getElem _ _ h4] at this
  exact this

/-! ## The candidate loop -/

theorem solutionFrom_step {rs cs : List Int} {fb : List (List Bool)} {row col : Nat}
    {s : Grid} (h : SolutionFrom rs cs fb row col s) :
    SolutionFrom rs cs fb row (col + 1) s := by
  obtain ⟨h1, h2, h3, h4⟩ := h
  refine ⟨h1, ?_, h3, h4⟩
  intro r hr c hc hb
  apply h2 r hr c hc
  intro hb2
  apply hb
  unfold Before at hb2 ⊢
  omega

theorem tryVals_spec (rs cs : List Int) (fb : List (List Bool)) (fuel row col : Nat)
    (hr : row < rs.length) (hc : col < cs.length)
    (recurse : Grid → Except Fault (Bool × Grid))
    (hrec : ∀ g, Shape g rs.length cs.length →
      (∃ b g2, recurse g = Except.ok (b, g2) ∧ Post rs cs fb row (col + 1) g b g2) ∨
      (recurse g = Except.error Fault.stackExhausted ∧
        fuel < framesNeeded rs.length cs.length row (col + 1)))
    (g0 : Grid) :
    ∀ (n : Nat) (val : Int) (g : Grid), Shape g rs.length cs.length →
      AgreeBefore rs.length cs.length row col g0 g →
      SameOrZero rs.length cs.length g0 g →
      0 ≤ val → val + n = (if forcedAt fb row col = true then 1 else 4) →
      (∀ s, AgreeBefore rs.length cs.length row col g0 s →
        SolutionFrom rs cs fb row col s → val ≤ cell s row col) →
      (∃ b g2, tryVals recurse row col n val g = Except.ok (b, g2) ∧
        Post rs cs fb row col g0 b g2) ∨
      (tryVals recurse row col n val g = Except.error Fault.stackExhausted ∧
        fuel < framesNeeded rs.length cs.length row (col + 1)) := by
  intro n
  induction n with
  | zero =>
    intro val g hg hag hsz hv0 hvn hmin
    left
    refine ⟨false, g, rfl, hg, hag, (fun h => by cases h), fun _ => ⟨?_, hsz⟩⟩
    intro s hs hsol
    have h1 := hmin s hs hsol
    obtain ⟨_, h3, h4⟩ := hsol.2.1 row hr col hc (by unfold Before; omega)
    by_cases hf : forcedAt fb row col = true
    · have := h4 hf
      simp only [hf, if_true] at hvn
      omega
    · simp only [hf] at hvn
      simp at hvn
      omega
  | succ n ih =>
    intro val g hg hag hsz hv0 hvn hmin
    have hg1 : Shape (putCell g row col val) rs.length cs.length := shape_putCell hg hr val
    have hvhi : val ≤ 3 ∧ (forcedAt fb row col = true → val = 0) := by
      by_cases hf : forcedAt fb row col = true
      · simp only [hf, if_true] at hvn
        push_cast at hvn
        exact ⟨by omega, fun _ => by omega⟩
      · simp only [hf] at hvn
        push_cast at hvn
        exact ⟨by omega, fun h => absurd h hf⟩
    simp only [tryVals, setCell_eq hg hr hc, Except.bind]
    rcases hrec _ hg1 with ⟨b, g2, hres, hpost⟩ | ⟨hres, hlt⟩
    · obtain ⟨hg2, hag2, htrue, hfalse⟩ := hpost
      have hg2cell : ∀ r < rs.length, ∀ c < cs.length, Before r c row col →
          cell g2 r c = cell g r c := by
        intro r hr2 c hc2 hb
        rw [hag2 r hr2 c hc2 (by unfold Before at hb ⊢; omega), cell_putCell hg hr hc]
        have : ¬ (r = row ∧ c = col) := by unfold Before at hb; omega
        simp only [this, if_false]
      have hg2val : cell g2 row col = val := by
        rw [hag2 row hr col hc (by unfold Before; omega), cell_putCell hg hr hc]
        simp
      rw [hres]
      cases b with
      | true =>
        left
        simp only [if_true]
        obtain ⟨hsol, hlex⟩ := htrue rfl
        refine ⟨true, g2, rfl, hg2, ?_, fun _ => ⟨?_, ?_⟩, fun h => by cases h⟩
        · intro r hr2 c hc2 hb
          rw [hg2cell r hr2 c hc2 hb, hag r hr2 c hc2 hb]
        · refine ⟨hsol.1, ?_, hsol.2.2.1, hsol.2.2.2⟩
          intro r hr2 c hc2 hb
          by_cases hrc : r = row ∧ c = col
          · rw [hrc.1, hrc.2, hg2val]
            exact ⟨hv0, hvhi.1, hvhi.2⟩
          · apply hsol.2.1 r hr2 c hc2
            unfold Before at hb ⊢
            omega
        · intro s hs hsols
          have h1 := hmin s hs hsols
          rcases eq_or_lt_of_le h1 with h2 | h2
          · apply hlex s ?_ (solutionFrom_step hsols)
            intro r hr2 c hc2 hb
            rw [cell_putCell hg hr hc]
            by_cases hrc : r = row ∧ c = col
            · simp only [hrc, and_self, if_true]
              exact h2.symm
            · simp only [hrc, if_false]
              rw [hs r hr2 c hc2 (by unfold Before at hb ⊢; omega),
                hag r hr2 c hc2 (by unfold Before at hb ⊢; omega)]
          · right
            refine ⟨row, hr, col, hc, ?_, by rw [hg2val]; exact h2⟩
            intro r hr2 c hc2 hb
            rw [hg2cell r hr2 c hc2 hb, hag r hr2 c hc2 hb, hs r hr2 c hc2 hb]
      | false =>
        simp only [Bool.false_eq_true, if_false, setCell_eq hg2 hr hc]
        obtain ⟨hnone, hsz2⟩ := hfalse rfl
        have hg3 : Shape (putCell g2 row col 0) rs.length cs.length := shape_putCell hg2 hr 0
        apply ih (val + 1) (putCell g2 row col 0) hg3
        · intro r hr2 c hc2 hb
          rw [cell_putCell hg2 hr hc]
          have : ¬ (r = row ∧ c = col) := by unfold Before at hb; omega
          simp only [this, if_false]
          rw [hg2cell r hr2 c hc2 hb, hag r hr2 c hc2 hb]
        · intro r hr2 c hc2
          rw [cell_putCell hg2 hr hc]
          by_cases hrc : r = row ∧ c = col
          · simp only [hrc, and_self, if_true, or_true]
          · simp only [hrc, if_false]
            rcases hsz2 r hr2 c hc2 with h | h
            · rw [h, cell_putCell hg hr hc]
              simp only [hrc, if_false]
              exact hsz r hr2 c hc2
            · exact Or.inr h
        · omega
        · rw [← hvn]; push_cast; ring
        · intro s hs hsols
          have h1 := hmin s hs hsols
          rcases eq_or_lt_of_le h1 with h2 | h2
          · exfalso
            apply hnone s ?_ (solutionFrom_step hsols)
            intro r hr2 c hc2 hb
            rw [cell_putCell hg hr hc]
            by_cases hrc : r = row ∧ c = col
            · simp only [hrc, and_self, if_true]
              exact h2.symm
            · simp only [hrc, if_false]
              rw [hs r hr2 c hc2 (by unfold Before at hb ⊢; omega),
                hag r hr2 c hc2 (by unfold Before at hb ⊢; omega)]
          · omega
    · right
      rw [hres]
      exact ⟨rfl, hlt⟩

/-! ## The search -/

theorem sum_range_bounds (f : Nat → Int) (m : Nat) :
    ∀ n, m ≤ n → (∀ i, m ≤ i → i < n → 0 ≤ f i ∧ f i ≤ 3) →
      ∑ i ∈ Finset.range m, f i ≤ ∑ i ∈ Finset.range n, f i ∧
      ∑ i ∈ Finset.range n, f i ≤ ∑ i ∈ Finset.range m, f i + ((n : Int) - (m : Int)) * 3 := by
  intro n hmn
  induction n, hmn using Nat.le_induction with
  | base => intro _; simp
  | succ n hmn ih =>
    intro hb
    have h1 := ih (fun i h1 h2 => hb i h1 (by omega))
    have h2 := hb n hmn (by omega)
    rw [Finset.sum_range_succ]
    push_cast
    constructor
    · linarith [h1.1, h2.1]
    · linarith [h1.2, h2.2]

theorem rowSum_congr {g s : Grid} {R C row : Nat} (hg : Shape g R C) (hs : Shape s R C)
    (hr : row < R) (h : ∀ c < C, cell s row c = cell g row c) :
    rowSum s row = rowSum g row := by
  rw [rowSum_eq hs hr, rowSum_eq hg hr]
  exact Finset.sum_congr rfl (fun c hc => h c (Finset.mem_range.mp hc))

theorem row_bounds {rs cs : List Int} {fb : List (List Bool)} {row col : Nat} {g s : Grid}
    (hr : row < rs.length) (hc : col ≤ cs.length)
    (hs : AgreeBefore rs.length cs.length row col g s)
    (hsol : SolutionFrom rs cs fb row col s) :
    ∑ c ∈ Finset.range col, cell g row c ≤ rs.getD row 0 ∧
    rs.getD row 0 ≤ ∑ c ∈ Finset.range col, cell g row c +
      ((cs.length : Int) - (col : Int)) * 3 := by
  have h1 := sum_range_bounds (fun c => cell s row c) col cs.length hc (by
    intro i h1 h2
    have := hsol.2.1 row hr i h2 (by unfold Before; omega)
    exact ⟨this.1, this.2.1⟩)
  have h2 : ∑ c ∈ Finset.range col, cell s row c = ∑ c ∈ Finset.range col, cell g row c :=
    Finset.sum_congr rfl (fun c hc2 => by
      have := Finset.mem_range.mp hc2
      exact hs row hr c (by omega) (by unfold Before; omega))
  have h3 := hsol.2.2.1 row hr le_rfl
  rw [rowSum_eq hsol.1 hr] at h3
  simp only at h1
  rw [h2, h3] at h1
  exact h1

theorem col_bounds {rs cs : List Int} {fb : List (List Bool)} {row col : Nat} {g s : Grid}
    (hr : row ≤ rs.length) (hc : col < cs.length)
    (hs : AgreeBefore rs.length cs.length row col g s)
    (hsol : SolutionFrom rs cs fb row col s) :
    ∑ r ∈ Finset.range row, cell g r col ≤ cs.getD col 0 ∧
    cs.getD col 0 ≤ ∑ r ∈ Finset.range row, cell g r col +
      ((rs.length : Int) - (row : Int)) * 3 := by
  have h1 := sum_range_bounds (fun r => cell s r col) row rs.length hr (by
    intro i h1 h2
    have := hsol.2.1 i h2 col hc (by unfold Before; omega)
    exact ⟨this.1, this.2.1⟩)
  have h2 : ∑ r ∈ Finset.range row, cell s r col = ∑ r ∈ Finset.range row, cell g r col :=
    Finset.sum_congr rfl (fun r hr2 => by
      have := Finset.mem_range.mp hr2
      exact hs r (by omega) col hc (by unfold Before; omega))
  have h3 := hsol.2.2.2 col hc
  rw [colSum_eq hsol.1] at h3
  simp only at h1
  rw [h2, h3] at h1
  exact h1

theorem post_end_of_grid {rs cs : List Int} {fb : List (List Bool)} {g : Grid} {b : Bool}
    (col : Nat) (hg : Shape g rs.length cs.length)
    (hiff : b = true ↔ ∀ c2, 0 ≤ c2 → c2 < 0 + cs.length → colSum g c2 = cs.getD c2 0) :
    Post rs cs fb rs.length col g b g := by
  have hsame : ∀ s, AgreeBefore rs.length cs.length rs.length col g s →
      SolutionFrom rs cs fb rs.length col s → g = s := by
    intro s hs hsol
    exact grid_ext hg hsol.1 (fun r hr c hc => (hs r hr c hc (Or.inl hr)).symm)
  refine ⟨hg, fun _ _ _ _ _ => rfl, fun hb => ⟨⟨hg, ?_, ?_, ?_⟩, ?_⟩, fun hb => ⟨?_, ?_⟩⟩
  · intro r hr c hc hbef
    exact absurd (Or.inl hr) hbef
  · intro r hr hle
    omega
  · intro c hc
    exact (hiff.mp hb) c (Nat.zero_le c) (by omega)
  · intro s hs hsol
    exact Or.inl (hsame s hs hsol)
  · intro s hs hsol
    have := hsame s hs hsol
    subst this
    have : b = true := hiff.mpr (fun c _ hc => hsol.2.2.2 c (by omega))
    rw [hb] at this
    cases this
  · intro r _ c _
    exact Or.inl rfl

theorem post_end_of_row {rs cs : List Int} {fb : List (List Bool)} {g g2 : Grid} {b : Bool}
    {row : Nat} (hr : row < rs.length) (hg : Shape g rs.length cs.length)
    (hsum : rowSum g row = rs.getD row 0)
    (h : Post rs cs fb (row + 1) 0 g b g2) :
    Post rs cs fb row cs.length g b g2 := by
  obtain ⟨hg2, hag, htrue, hfalse⟩ := h
  have hbef : ∀ r c, c < cs.length → (Before r c row cs.length ↔ Before r c (row + 1) 0) := by
    intro r c hc
    unfold Before
    omega
  have hconv : ∀ s, AgreeBefore rs.length cs.length row cs.length g s →
      AgreeBefore rs.length cs.length (row + 1) 0 g s :=
    fun s hs r hr2 c hc hb => hs r hr2 c hc ((hbef r c hc).mpr hb)
  have hsolconv : ∀ s, SolutionFrom rs cs fb row cs.length s →
      SolutionFrom rs cs fb (row + 1) 0 s := by
    intro s hsol
    refine ⟨hsol.1, ?_, ?_, hsol.2.2.2⟩
    · intro r hr2 c hc hb
      exact hsol.2.1 r hr2 c hc (fun hb2 => hb ((hbef r c hc).mp hb2))
    · intro r hr2 hle
      exact hsol.2.2.1 r hr2 (by omega)
  refine ⟨hg2, ?_, fun hb => ⟨?_, ?_⟩, fun hb => ⟨?_, (hfalse hb).2⟩⟩
  · intro r hr2 c hc hb
    exact hag r hr2 c hc ((hbef r c hc).mp hb)
  · obtain ⟨hsol, _⟩ := htrue hb
    refine ⟨hsol.1, ?_, ?_, hsol.2.2.2⟩
    · intro r hr2 c hc hb
      exact hsol.2.1 r hr2 c hc (fun hb2 => hb ((hbef r c hc).mpr hb2))
    · intro r hr2 hle
      rcases Nat.eq_or_lt_of_le hle with h1 | h1
      · subst h1
        rw [rowSum_congr hg hg2 hr (fun c hc => hag row hr c hc (by unfold Before; omega))]
        exact hsum
      · exact hsol.2.2.1 r hr2 (by omega)
  · intro s hs hsol
    exact (htrue hb).2 s (hconv s hs) (hsolconv s hsol)
  · intro s hs hsol
    exact (hfalse hb).1 s (hconv s hs) (hsolconv s hsol)

theorem post_pruned {rs cs : List Int} {fb : List (List Bool)} {g : Grid}
    {row col : Nat} (hg : Shape g rs.length cs.length)
    (hnone : ∀ s, AgreeBefore rs.length cs.length row col g s →
      ¬ SolutionFrom rs cs fb row col s) :
    Post rs cs fb row col g false g :=
  ⟨hg, fun _ _ _ _ _ => rfl, (fun h => by cases h),
    fun _ => ⟨hnone, fun _ _ _ _ => Or.inl rfl⟩⟩

theorem framesNeeded_pos (R C row col : Nat) : 0 < framesNeeded R C row col := by
  unfold framesNeeded
  split <;> omega

theorem framesNeeded_next_col {R C row col : Nat} (hr : row < R) (hc : col < C) :
    framesNeeded R C row col = framesNeeded R C row (col + 1) + 1 := by
  unfold framesNeeded
  rw [if_neg (by omega), if_neg (by omega)]
  omega

theorem framesNeeded_next_row {R C row : Nat} (hr : row < R) :
    framesNeeded R C row C = framesNeeded R C (row + 1) 0 + 1 := by
  unfold framesNeeded
  rw [if_neg (by omega)]
  by_cases h : R ≤ row + 1
  · rw [if_pos h]
    have : R - 1 - row = 0 := by omega
    rw [this]
    omega
  · rw [if_neg h]
    have : R - 1 - row = (R - 1 - (row + 1)) + 1 := by omega
    rw [this, Nat.add_mul]
    omega

/-- The contract of `backtrack` at every cursor: on a grid of the instance's
shape the call never panics; it either returns a verdict and a grid satisfying
`Post`, or runs out of stack frames, which needs fewer than `framesNeeded`. -/
theorem backtrack_spec (rs cs : List Int) (fb : List (List Bool))
    (hR : 0 < rs.length) (hfb : Shape fb rs.length cs.length) :
    ∀ (fuel : Nat) (g : Grid) (row col : Nat), Shape g rs.length cs.length →
      row ≤ rs.length → col ≤ cs.length →
      (∃ b g2, backtrack fuel g rs cs fb row col = Except.ok (b, g2) ∧
        Post rs cs fb row col g b g2) ∨
      (backtrack fuel g rs cs fb row col = Except.error Fault.stackExhausted ∧
        fuel < framesNeeded rs.length cs.length row col) := by
  intro fuel
  induction fuel with
  | zero =>
    intro g row col _ _ _
    exact Or.inr ⟨rfl, framesNeeded_pos _ _ _ _⟩
  | succ fuel ih =>
    intro g row col hg hrow hcol
    rw [backtrack]
    simp only [index_row hg hR, Except.bind, hg.1, shape_row hg hR]
    rcases Nat.eq_or_lt_of_le hrow with hrow2 | hrow2
    · -- end of grid
      subst hrow2
      obtain ⟨b, hb, hiff⟩ := checkColSums_eq hg cs rfl cs.length 0 (by omega)
      simp only [if_true, hb]
      exact Or.inl ⟨b, g, rfl, post_end_of_grid col hg hiff⟩
    · have hne : ¬ row = rs.length := by omega
      simp only [hne, if_false]
      rcases Nat.eq_or_lt_of_le hcol with hcol2 | hcol2
      · -- end of row
        subst hcol2
        simp only [if_true, index_row hg hrow2, index_of_lt rs row 0 hrow2, sumInts_eq_sum]
        by_cases hsum : (g.getD row []).sum = rs.getD row 0
        · simp only [ne_eq, hsum, not_true_eq_false, if_false]
          rcases ih g (row + 1) 0 hg (by omega) (by omega) with ⟨b, g2, hres, hpost⟩ | ⟨hres, hlt⟩
          · exact Or.inl ⟨b, g2, hres, post_end_of_row hrow2 hg hsum hpost⟩
          · refine Or.inr ⟨hres, ?_⟩
            rw [framesNeeded_next_row hrow2]
            omega
        · simp only [ne_eq, hsum, not_false_eq_true, if_true]
          refine Or.inl ⟨false, g, rfl, post_pruned hg ?_⟩
          intro s hs hsol
          apply hsum
          have h1 := hsol.2.2.1 row hrow2 le_rfl
          rw [rowSum_congr hg hsol.1 hrow2
            (fun c hc => hs row hrow2 c hc (by unfold Before; omega))] at h1
          exact h1
      · -- interior cell
        have hne2 : ¬ col = cs.length := by omega
        simp only [hne2, if_false, partialRowSum_eq hg hrow2 col hcol,
          index_of_lt rs row 0 hrow2]
        split
        · rename_i hprune
          refine Or.inl ⟨false, g, rfl, post_pruned hg ?_⟩
          intro s hs hsol
          have := row_bounds hrow2 hcol hs hsol
          omega
        · rename_i hprune
          simp only [partialColSum_eq hg hcol2 row hrow, index_of_lt cs col 0 hcol2]
          split
          · rename_i hprune2
            refine Or.inl ⟨false, g, rfl, post_pruned hg ?_⟩
            intro s hs hsol
            have := col_bounds hrow hcol2 hs hsol
            omega
          · rename_i hprune2
            have hfr : index (fb.getD row []) col = Except.ok (forcedAt fb row col) :=
              index_of_lt _ col false (by rw [shape_row hfb hrow2]; exact hcol2)
            simp only [index_row hfb hrow2, hfr]
            have key := tryVals_spec rs cs fb fuel row col hrow2 hcol2
              (fun g => backtrack fuel g rs cs fb row (col + 1))
              (fun g2 hg2 => ih g2 row (col + 1) hg2 hrow (by omega)) g
              ((if forcedAt fb row col = true then (0 : Int) else 3) + 1 - 0).toNat 0 g hg
              (fun _ _ _ _ _ => rfl) (fun _ _ _ _ => Or.inl rfl) le_rfl
              (by by_cases hf : forcedAt fb row col = true <;> simp [hf])
              (fun s _ hsol => (hsol.2.1 row hrow2 col hcol2 (by unfold Before; omega)).1)
            rcases key with h | ⟨hres, hlt⟩
            · exact Or.inl h
            · refine Or.inr ⟨hres, ?_⟩
              rw [framesNeeded_next_col hrow2 hcol2]
              omega

/-! ## Row-major order -/

theorem shape_take {g : Grid} {R C : Nat} (hg : Shape g R C) {r : Nat} (hr : r ≤ R) :
    Shape (g.take r) r C :=
  ⟨by rw [List.length_take, hg.1]; omega, fun x hx => hg.2 x (List.mem_of_mem_take hx)⟩

theorem cell_take (g : Grid) {r r2 : Nat} (h : r2 < r) (c : Nat) :
    cell (g.take r) r2 c = cell g r2 c := by
  unfold cell
  simp only [List.getD_eq_getElem?_getD, List.getElem?_take_of_lt h]

theorem flatten_split {g : Grid} {R C : Nat} (hg : Shape g R C) {r c : Nat}
    (hr : r < R) (hc : c < C) :
    g.flatten = ((g.take r).flatten ++ (g.getD r []).take c) ++
      cell g r c :: ((g.getD r []).drop (c + 1) ++ (g.drop (r + 1)).flatten) := by
  have h1 : r < g.length := by rw [hg.1]; exact hr
  have h2 : c < (g.getD r []).length := by rw [shape_row hg hr]; exact hc
  have e1 : g = g.take r ++ g.getD r [] :: g.drop (r + 1) := by
    rw [List.getD_eq_getElem _ _ h1, ← List.drop_eq_getElem_cons h1, List.take_append_drop]
  have e2 : g.getD r [] = (g.getD r []).take c ++ cell g r c :: (g.getD r []).drop (c + 1) := by
    unfold cell
    rw [List.getD_eq_getElem _ _ h2, ← List.drop_eq_getElem_cons h2, List.take_append_drop]
  calc g.flatten
      = (g.take r ++ g.getD r [] :: g.drop (r + 1)).flatten := by rw [← e1]
    _ = (g.take r).flatten ++ (g.getD r [] ++ (g.drop (r + 1)).flatten) := by
        rw [List.flatten_append, List.flatten_cons]
    _ = (g.take r).flatten ++ (((g.getD r []).take c ++
          cell g r c :: (g.getD r []).drop (c + 1)) ++ (g.drop (r + 1)).flatten) := by
        rw [← e2]
    _ = _ := by simp only [List.append_assoc, List.cons_append]

theorem prefix_eq_of_agree {g s : Grid} {R C : Nat} (hg : Shape g R C) (hs : Shape s R C)
    {r c : Nat} (hr : r < R) (hc : c < C)
    (h : ∀ r2 < R, ∀ c2 < C, Before r2 c2 r c → cell g r2 c2 = cell s r2 c2) :
    (g.take r).flatten ++ (g.getD r []).take c = (s.take r).flatten ++ (s.getD r []).take c := by
  have e1 : g.take r = s.take r := by
    apply grid_ext (shape_take hg (le_of_lt hr)) (shape_take hs (le_of_lt hr))
    intro r2 hr2 c2 hc2
    rw [cell_take g hr2, cell_take s hr2]
    exact h r2 (by omega) c2 hc2 (Or.inl hr2)
  have e2 : (g.getD r []).take c = (s.getD r []).take c := by
    apply List.ext_getElem?
    intro c2
    rw [List.getElem?_take, List.getElem?_take]
    by_cases hc2 : c2 < c
    · simp only [hc2, if_true]
      have := h r hr c2 (by omega) (Or.inr ⟨rfl, hc2⟩)
      unfold cell at this
      have l1 : c2 < (g.getD r []).length := by rw [shape_row hg hr]; omega
      have l2 : c2 < (s.getD r []).length := by rw [shape_row hs hr]; omega
      rw [List.getD_eq_getElem _ _ l1, List.getD_eq_getElem _ _ l2] at this
      rw [List.getElem?_eq_getElem l1, List.getElem?_eq_getElem l2, this]
    · simp only [hc2, if_false]
  rw [e1, e2]

theorem flatten_le_of_lexLE {g s : Grid} {R C : Nat} (hg : Shape g R C) (hs : Shape s R C)
    (h : LexLE R C g s) : g.flatten ≤ s.flatten := by
  rcases h with h | ⟨r, hr, c, hc, hag, hlt⟩
  · rw [h]
  · apply le_of_lt
    rw [flatten_split hg hr hc, flatten_split hs hr hc, prefix_eq_of_agree hg hs hr hc hag]
    exact List.Lex.append_left _ (List.Lex.rel hlt) _

theorem lexLE_antisymm {g s : Grid} {R C : Nat} (h1 : LexLE R C g s) (h2 : LexLE R C s g) :
    g = s := by
  rcases h1 with h1 | ⟨r, hr, c, hc, hag, hlt⟩
  · exact h1
  rcases h2 with h2 | ⟨r2, hr2, c2, hc2, hag2, hlt2⟩
  · exact h2.symm
  exfalso
  by_cases hb : Before r c r2 c2
  · have := hag2 r hr c hc hb
    omega
  · by_cases hb2 : Before r2 c2 r c
    · have := hag r2 hr2 c2 hc2 hb2
      omega
    · have : r = r2 ∧ c = c2 := by unfold Before at hb hb2; omega
      rw [this.1, this.2] at hlt
      omega

/-! ## Consequences at the start of the search -/

theorem shape_zeroGrid (R C : Nat) : Shape (zeroGrid R C) R C := by
  refine ⟨by simp [zeroGrid], ?_⟩
  intro x hx
  unfold zeroGrid at hx
  rw [(List.mem_replicate.mp hx).2, List.length_replicate]

theorem cell_zeroGrid (R C r c : Nat) : cell (zeroGrid R C) r c = 0 := by
  unfold cell zeroGrid
  simp only [List.getD_eq_getElem?_getD, List.getElem?_replicate]
  by_cases h1 : r < R
  · by_cases h2 : c < C <;> simp [h1, h2, List.getElem?_replicate]
  · simp [h1]

theorem framesNeeded_start {R : Nat} (C : Nat) (hR : 0 < R) :
    framesNeeded R C 0 0 = R * (C + 1) + 1 := by
  unfold framesNeeded
  rw [if_neg (by omega)]
  obtain ⟨k, rfl⟩ : ∃ k, R = k + 1 := ⟨R - 1, by omega⟩
  simp only [Nat.add_sub_cancel, Nat.sub_zero, Nat.add_mul]
  omega

theorem validSolution_iff (rs cs : List Int) (fb : List (List Bool)) (s : Grid) :
    ValidSolution rs cs fb s ↔ SolutionFrom rs cs fb 0 0 s := by
  unfold ValidSolution SolutionFrom
  constructor
  · rintro ⟨h1, h2, h3, h4⟩
    exact ⟨h1, fun r hr c hc _ => h2 r hr c hc, fun r hr _ => h3 r hr, h4⟩
  · rintro ⟨h1, h2, h3, h4⟩
    exact ⟨h1, fun r hr c hc => h2 r hr c hc (by unfold Before; omega),
      fun r hr => h3 r hr (Nat.zero_le r), h4⟩

theorem agreeBefore_start (R C : Nat) (g s : Grid) : AgreeBefore R C 0 0 g s := by
  intro r _ c _ hb
  unfold Before at hb
  omega

/-- Whatever the stack budget, a verdict returned from the start cursor on a
grid of the instance's shape satisfies the contract. -/
theorem backtrack_post {rs cs : List Int} {fb : List (List Bool)}
    (hv : ShapeValid rs cs fb) {fuel : Nat} {g g2 : Grid} {b : Bool}
    (hg : Shape g rs.length cs.length)
    (h : backtrack fuel g rs cs fb 0 0 = Except.ok (b, g2)) :
    Post rs cs fb 0 0 g b g2 := by
  rcases backtrack_spec rs cs fb hv.1 hv.2 fuel g 0 0 hg (Nat.zero_le _) (Nat.zero_le _)
    with ⟨b2, g3, hres, hpost⟩ | ⟨hres, _⟩
  · rw [h] at hres
    injection hres with hres
    injection hres with e1 e2
    rw [e1, e2]
    exact hpost
  · rw [h] at hres
    cases hres

/-- With `R*(C+1)+1` stack frames the search from the start cursor returns. -/
theorem backtrack_returns {rs cs : List Int} {fb : List (List Bool)}
    (hv : ShapeValid rs cs fb) {fuel : Nat} (g : Grid)
    (hg : Shape g rs.length cs.length)
    (hfuel : rs.length * (cs.length + 1) + 1 ≤ fuel) :
    ∃ b g2, backtrack fuel g rs cs fb 0 0 = Except.ok (b, g2) ∧ Post rs cs fb 0 0 g b g2 := by
  rcases backtrack_spec rs cs fb hv.1 hv.2 fuel g 0 0 hg (Nat.zero_le _) (Nat.zero_le _)
    with h | ⟨_, hlt⟩
  · exact h
  · rw [framesNeeded_start _ hv.1] at hlt
    omega

theorem total_eq_of_solution {rs cs : List Int} {fb : List (List Bool)} {s : Grid}
    (h : SolutionFrom rs cs fb 0 0 s) : rs.sum = cs.sum := by
  obtain ⟨hs, _, hrow, hcol⟩ := h
  rw [list_sum_eq_range rs, list_sum_eq_range cs]
  calc ∑ r ∈ Finset.range rs.length, rs.getD r 0
      = ∑ r ∈ Finset.range rs.length, ∑ c ∈ Finset.range cs.length, cell s r c := by
        apply Finset.sum_congr rfl
        intro r hr
        have hr2 := Finset.mem_range.mp hr
        rw [← hrow r hr2 (Nat.zero_le r), rowSum_eq hs hr2]
    _ = ∑ c ∈ Finset.range cs.length, ∑ r ∈ Finset.range rs.length, cell s r c :=
        Finset.sum_comm
    _ = ∑ c ∈ Finset.range cs.length, cs.getD c 0 := by
        apply Finset.sum_congr rfl
        intro c hc
        rw [← hcol c (Finset.mem_range.mp hc), colSum_eq hs c]

theorem eq_zeroGrid_of_sameOrZero {R C : Nat} {g2 : Grid} (hg2 : Shape g2 R C)
    (h : SameOrZero R C (zeroGrid R C) g2) : g2 = zeroGrid R C := by
  apply grid_ext hg2 (shape_zeroGrid R C)
  intro r hr c hc
  rw [cell_zeroGrid]
  rcases h r hr c hc with h1 | h1
  · rw [h1, cell_zeroGrid]
  · exact h1

/-! ## The log -/

theorem eraseLog_bind {α : Type} (x : Except Fault α)
    (k : α → Except Fault (Bool × Grid × List Write)) :
    eraseLog (x.bind k) = x.bind fun a => eraseLog (k a) := by
  cases x <;> rfl

theorem tryValsLog_erase (recL : Grid → Except Fault (Bool × Grid × List Write))
    (rec : Grid → Except Fault (Bool × Grid)) (hrec : ∀ g, eraseLog (recL g) = rec g)
    (row col : Nat) : ∀ (n : Nat) (val : Int) (g : Grid),
    eraseLog (tryValsLog recL row col n val g) = tryVals rec row col n val g
  | 0, _, _ => rfl
  | n + 1, val, g => by
    rw [tryValsLog, tryVals]
    cases h1 : setCell g row col val with
    | error e => rfl
    | ok g1 =>
      simp only [Except.bind]
      rw [← hrec g1]
      cases h2 : recL g1 with
      | error e => rfl
      | ok res =>
        simp only [eraseLog]
        cases h3 : res.1 with
        | true => simp [eraseLog]
        | false =>
          simp only [Bool.false_eq_true, if_false]
          cases h4 : setCell res.2.1 row col 0 with
          | error e => rfl
          | ok g2 =>
            simp only
            rw [← tryValsLog_erase recL rec hrec row col n (val + 1) g2]
            cases h5 : tryValsLog recL row col n (val + 1) g2 <;> rfl

theorem backtrackLog_erase (rs cs : List Int) (fb : List (List Bool)) :
    ∀ (fuel : Nat) (g : Grid) (row col : Nat),
    eraseLog (backtrackLog fuel g rs cs fb row col) = backtrack fuel g rs cs fb row col
  | 0, _, _, _ => rfl
  | fuel + 1, g, row, col => by
    rw [backtrackLog, backtrack]
    simp only [eraseLog_bind, apply_ite eraseLog,
      backtrackLog_erase rs cs fb fuel,
      tryValsLog_erase _ _ (fun g => backtrackLog_erase rs cs fb fuel g row (col + 1))]
    rfl

theorem allWrites_bind {α : Type} {P : Write → Prop} (x : Except Fault α)
    (k : α → Except Fault (Bool × Grid × List Write))
    (h : ∀ a, AllWrites P (k a)) : AllWrites P (x.bind k) := by
  cases x with
  | error e => exact True.intro
  | ok a => exact h a

theorem allWrites_nil {P : Write → Prop} (b : Bool) (g : Grid) :
    AllWrites P (Except.ok (b, g, [])) := by
  intro w hw
  cases hw

theorem tryValsLog_writes (recL : Grid → Except Fault (Bool × Grid × List Write))
    (hrec : ∀ g, AllWrites (fun w => 0 ≤ w.val ∧ w.val ≤ 3) (recL g))
    (row col : Nat) : ∀ (n : Nat) (val : Int) (g : Grid), 0 ≤ val → val + n ≤ 4 →
    AllWrites (fun w => 0 ≤ w.val ∧ w.val ≤ 3) (tryValsLog recL row col n val g)
  | 0, _, _, _, _ => allWrites_nil _ _
  | n + 1, val, g, h0, h4 => by
    have hval : val ≤ 3 := by push_cast at h4; omega
    rw [tryValsLog]
    apply allWrites_bind
    intro g1
    have hr := hrec g1
    cases h2 : recL g1 with
    | error e => exact True.intro
    | ok res =>
      rw [h2] at hr
      simp only [Except.bind]
      cases h3 : res.1 with
      | true =>
        simp only [if_true]
        intro w hw
        rcases List.mem_cons.mp hw with h | h
        · rw [h]; exact ⟨h0, hval⟩
        · exact hr w h
      | false =>
        simp only [Bool.false_eq_true, if_false]
        cases h4s : setCell res.2.1 row col 0 with
        | error e => exact True.intro
        | ok g2 =>
          dsimp only
          have ih := tryValsLog_writes recL hrec row col n (val + 1) g2 (by omega)
            (by push_cast at h4; omega)
          cases h5 : tryValsLog recL row col n (val + 1) g2 with
          | error e => exact True.intro
          | ok rest =>
            rw [h5] at ih
            intro w hw
            rcases List.mem_cons.mp hw with h | h
            · rw [h]; exact ⟨h0, hval⟩
            · rcases List.mem_append.mp h with h | h
              · exact hr w h
              · rcases List.mem_cons.mp h with h | h
                · rw [h]; exact ⟨le_rfl, by norm_num⟩
                · exact ih w h

theorem backtrackLog_writes (rs cs : List Int) (fb : List (List Bool)) :
    ∀ (fuel : Nat) (g : Grid) (row col : Nat),
    AllWrites (fun w => 0 ≤ w.val ∧ w.val ≤ 3) (backtrackLog fuel g rs cs fb row col)
  | 0, _, _, _ => True.intro
  | fuel + 1, g, row, col => by
    rw [backtrackLog]
    apply allWrites_bind; intro row0
    simp only
    split
    · apply allWrites_bind; intro ok
      exact allWrites_nil _ _
    · split
      · apply allWrites_bind; intro r
        apply allWrites_bind; intro rowTarget
        split
        · exact allWrites_nil _ _
        · exact backtrackLog_writes rs cs fb fuel g (row + 1) 0
      · apply allWrites_bind; intro partialRow
        apply allWrites_bind; intro rowTarget
        split
        · exact allWrites_nil _ _
        · apply allWrites_bind; intro partialCol
          apply allWrites_bind; intro colTarget
          split
          · exact allWrites_nil _ _
          · apply allWrites_bind; intro fr
            apply allWrites_bind; intro forced
            apply tryValsLog_writes _
              (fun g2 => backtrackLog_writes rs cs fb fuel g2 row (col + 1))
            · exact le_rfl
            · cases forced <;> simp

/-- Two returning runs from the start cursor, on any two grids of the instance's
shape and with any stack budgets, give the same verdict, and the same grid when
the verdict is true. -/
theorem verdict_unique {rs cs : List Int} {fb : List (List Bool)}
    (hv : ShapeValid rs cs fb) {fuel1 fuel2 : Nat} {g1 g2 r1 r2 : Grid} {b1 b2 : Bool}
    (hg1 : Shape g1 rs.length cs.length) (hg2 : Shape g2 rs.length cs.length)
    (h1 : backtrack fuel1 g1 rs cs fb 0 0 = Except.ok (b1, r1))
    (h2 : backtrack fuel2 g2 rs cs fb 0 0 = Except.ok (b2, r2)) :
    b1 = b2 ∧ (b1 = true → r1 = r2) := by
  have p1 := backtrack_post hv hg1 h1
  have p2 := backtrack_post hv hg2 h2
  cases b1 with
  | true =>
    obtain ⟨hsol1, hlex1⟩ := p1.2.2.1 rfl
    cases b2 with
    | true =>
      obtain ⟨hsol2, hlex2⟩ := p2.2.2.1 rfl
      have l1 := hlex1 r2 (agreeBefore_start _ _ _ _) hsol2
      have l2 := hlex2 r1 (agreeBefore_start _ _ _ _) hsol1
      exact ⟨rfl, fun _ => lexLE_antisymm l1 l2⟩
    | false =>
      exact absurd hsol1 ((p2.2.2.2 rfl).1 r1 (agreeBefore_start _ _ _ _))
  | false =>
    cases b2 with
    | true =>
      obtain ⟨hsol2, _⟩ := p2.2.2.1 rfl
      exact absurd hsol2 ((p1.2.2.2 rfl).1 r2 (agreeBefore_start _ _ _ _))
    | false => exact ⟨rfl, fun h => by cases h⟩

theorem readForcedBlanks_shape (numCols : Nat) :
    ∀ (n : Nat) (input : List (List Nat)) (fb : List (List Bool)),
    readForcedBlanks numCols n input = some fb → Shape fb n numCols
  | 0, _, fb, h => by
    simp only [readForcedBlanks, Option.some.injEq] at h
    subst h
    exact ⟨rfl, fun x hx => by cases hx⟩
  | n + 1, input, fb, h => by
    simp only [readForcedBlanks] at h
    split at h
    · cases h
    · rename_i hlen
      cases hrest : readForcedBlanks numCols n input.tail with
      | none => rw [hrest] at h; cases h
      | some rest =>
        rw [hrest] at h
        simp only [Option.map_some', Option.some.injEq] at h
        subst h
        have ih := readForcedBlanks_shape numCols n input.tail rest hrest
        refine ⟨by simp [ih.1], ?_⟩
        intro x hx
        rcases List.mem_cons.mp hx with hx | hx
        · rw [hx]
          simp only [patternRow, List.length_map]
          exact not_not.mp hlen
        · exact ih.2 x hx

theorem shape_singleton {α : Type} (x : α) : Shape [[x]] 1 1 :=
  ⟨rfl, fun y hy => by rw [List.mem_singleton.mp hy]; rfl⟩

/-- With no row sums and no column sums the totals agree, no pattern is read, and
the call of `backtrack` panics at `len(grid[0])`: the precondition `R > 0` is
needed. -/
theorem solvePuzzle_no_rows (fuel : Nat) (patterns : List (List Nat)) :
    solvePuzzle (fuel + 1) [] [] patterns = Outcome.crashed Fault.indexOutOfRange := rfl

theorem one_by_one_cell {g : Grid} (hg : Shape g 1 1) :
    rowSum g 0 = cell g 0 0 ∧ colSum g 0 = cell g 0 0 := by
  rw [rowSum_eq hg (by omega), colSum_eq hg 0]
  simp

theorem one_by_one_eq {g : Grid} (hg : Shape g 1 1) : g = [[cell g 0 0]] := by
  apply grid_ext hg (shape_singleton _)
  intro r hr c hc
  have h1 : r = 0 := by omega
  have h2 : c = 0 := by omega
  rw [h1, h2]
  rfl

/-! ## The search without pruning -/

/-- The contract of `backtrack` holds for `backtrackNoPrune` as well. -/
theorem backtrackNoPrune_spec (rs cs : List Int) (fb : List (List Bool))
    (hR : 0 < rs.length) (hfb : Shape fb rs.length cs.length) :
    ∀ (fuel : Nat) (g : Grid) (row col : Nat), Shape g rs.length cs.length →
      row ≤ rs.length → col ≤ cs.length →
      (∃ b g2, backtrackNoPrune fuel g rs cs fb row col = Except.ok (b, g2) ∧
        Post rs cs fb row col g b g2) ∨
      (backtrackNoPrune fuel g rs cs fb row col = Except.error Fault.stackExhausted ∧
        fuel < framesNeeded rs.length cs.length row col) := by
  intro fuel
  induction fuel with
  | zero =>
    intro g row col _ _ _
    exact Or.inr ⟨rfl, framesNeeded_pos _ _ _ _⟩
  | succ fuel ih =>
    intro g row col hg hrow hcol
    rw [backtrackNoPrune]
    simp only [index_row hg hR, Except.bind, hg.1, shape_row hg hR]
    rcases Nat.eq_or_lt_of_le hrow with hrow2 | hrow2
    · subst hrow2
      obtain ⟨b, hb, hiff⟩ := checkColSums_eq hg cs rfl cs.length 0 (by omega)
      simp only [if_true, hb]
      exact Or.inl ⟨b, g, rfl, post_end_of_grid col hg hiff⟩
    · have hne : ¬ row = rs.length := by omega
      simp only [hne, if_false]
      rcases Nat.eq_or_lt_of_le hcol with hcol2 | hcol2
      · subst hcol2
        simp only [if_true, index_row hg hrow2, index_of_lt rs row 0 hrow2, sumInts_eq_sum]
        by_cases hsum : (g.getD row []).sum = rs.getD row 0
        · simp only [ne_eq, hsum, not_true_eq_false, if_false]
          rcases ih g (row + 1) 0 hg (by omega) (by omega) with ⟨b, g2, hres, hpost⟩ | ⟨hres, hlt⟩
          · exact Or.inl ⟨b, g2, hres, post_end_of_row hrow2 hg hsum hpost⟩
          · refine Or.inr ⟨hres, ?_⟩
            rw [framesNeeded_next_row hrow2]
            omega
        · simp only [ne_eq, hsum, not_false_eq_true, if_true]
          refine Or.inl ⟨false, g, rfl, post_pruned hg ?_⟩
          intro s hs hsol
          apply hsum
          have h1 := hsol.2.2.1 row hrow2 le_rfl
          rw [rowSum_congr hg hsol.1 hrow2
            (fun c hc => hs row hrow2 c hc (by unfold Before; omega))] at h1
          exact h1
      · have hne2 : ¬ col = cs.length := by omega
        have hfr : index (fb.getD row []) col = Except.ok (forcedAt fb row col) :=
          index_of_lt _ col false (by rw [shape_row hfb hrow2]; exact hcol2)
        simp only [hne2, if_false, index_row hfb hrow2, hfr]
        have key := tryVals_spec rs cs fb fuel row col hrow2 hcol2
          (fun g => backtrackNoPrune fuel g rs cs fb row (col + 1))
          (fun g2 hg2 => ih g2 row (col + 1) hg2 hrow (by omega)) g
          ((if forcedAt fb row col = true then (0 : Int) else 3) + 1 - 0).toNat 0 g hg
          (fun _ _ _ _ _ => rfl) (fun _ _ _ _ => Or.inl rfl) le_rfl
          (by by_cases hf : forcedAt fb row col = true <;> simp [hf])
          (fun s _ hsol => (hsol.2.1 row hrow2 col hcol2 (by unfold Before; omega)).1)
        rcases key with h | ⟨hres, hlt⟩
        · exact Or.inl h
        · refine Or.inr ⟨hres, ?_⟩
          rw [framesNeeded_next_col hrow2 hcol2]
          omega

/-! ## Verdict and solved grid -/

theorem postVerdict_of_post {rs cs : List Int} {fb : List (List Bool)} {row col : Nat}
    {g g2 : Grid} {b : Bool} (h : Post rs cs fb row col g b g2) :
    PostVerdict rs cs fb row col g b g2 :=
  ⟨h.1, h.2.1, h.2.2.1, fun hb => (h.2.2.2 hb).1⟩

/-- Two results that satisfy the verdict part of the contract at the start
cursor carry the same verdict, and the same grid when the verdict is true. -/
theorem postVerdict_unique {rs cs : List Int} {fb : List (List Bool)}
    {g1 g2 r1 r2 : Grid} {b1 b2 : Bool}
    (p1 : PostVerdict rs cs fb 0 0 g1 b1 r1) (p2 : PostVerdict rs cs fb 0 0 g2 b2 r2) :
    b1 = b2 ∧ (b1 = true → r1 = r2) := by
  cases b1 with
  | true =>
    obtain ⟨hsol1, hlex1⟩ := p1.2.2.1 rfl
    cases b2 with
    | true =>
      obtain ⟨hsol2, hlex2⟩ := p2.2.2.1 rfl
      have l1 := hlex1 r2 (agreeBefore_start _ _ _ _) hsol2
      have l2 := hlex2 r1 (agreeBefore_start _ _ _ _) hsol1
      exact ⟨rfl, fun _ => lexLE_antisymm l1 l2⟩
    | false =>
      exact absurd hsol1 (p2.2.2.2 rfl r1 (agreeBefore_start _ _ _ _))
  | false =>
    cases b2 with
    | true =>
      obtain ⟨hsol2, _⟩ := p2.2.2.1 rfl
      exact absurd hsol2 (p1.2.2.2 rfl r2 (agreeBefore_start _ _ _ _))
    | false => exact ⟨rfl, fun h => by cases h⟩

/-! ## The search without the reset -/

theorem tryValsNoReset_spec (rs cs : List Int) (fb : List (List Bool)) (fuel row col : Nat)
    (hr : row < rs.length) (hc : col < cs.length)
    (recurse : Grid → Except Fault (Bool × Grid))
    (hrec : ∀ g, Shape g rs.length cs.length →
      (∃ b g2, recurse g = Except.ok (b, g2) ∧ PostVerdict rs cs fb row (col + 1) g b g2) ∨
      (recurse g = Except.error Fault.stackExhausted ∧
        fuel < framesNeeded rs.length cs.length row (col + 1)))
    (g0 : Grid) :
    ∀ (n : Nat) (val : Int) (g : Grid), Shape g rs.length cs.length →
      AgreeBefore rs.length cs.length row col g0 g →
      0 ≤ val → val + n = (if forcedAt fb row col = true then 1 else 4) →
      (∀ s, AgreeBefore rs.length cs.length row col g0 s →
        SolutionFrom rs cs fb row col s → val ≤ cell s row col) →
      (∃ b g2, tryValsNoReset recurse row col n val g = Except.ok (b, g2) ∧
        PostVerdict rs cs fb row col g0 b g2) ∨
      (tryValsNoReset recurse row col n val g = Except.error Fault.stackExhausted ∧
        fuel < framesNeeded rs.length cs.length row (col + 1)) := by
  intro n
  induction n with
  | zero =>
    intro val g hg hag hv0 hvn hmin
    left
    refine ⟨false, g, rfl, hg, hag, (fun h => by cases h), fun _ => ?_⟩
    intro s hs hsol
    have h1 := hmin s hs hsol
    obtain ⟨_, h3, h4⟩ := hsol.2.1 row hr col hc (by unfold Before; omega)
    by_cases hf : forcedAt fb row col = true
    · have := h4 hf
      simp only [hf, if_true] at hvn
      omega
    · simp only [hf] at hvn
      simp at hvn
      omega
  | succ n ih =>
    intro val g hg hag hv0 hvn hmin
    have hg1 : Shape (putCell g row col val) rs.length cs.length := shape_putCell hg hr val
    have hvhi : val ≤ 3 ∧ (forcedAt fb row col = true → val = 0) := by
      by_cases hf : forcedAt fb row col = true
      · simp only [hf, if_true] at hvn
        push_cast at hvn
        exact ⟨by omega, fun _ => by omega⟩
      · simp only [hf] at hvn
        push_cast at hvn
        exact ⟨by omega, fun h => absurd h hf⟩
    simp only [tryValsNoReset, setCell_eq hg hr hc, Except.bind]
    rcases hrec _ hg1 with ⟨b, g2, hres, hpost⟩ | ⟨hres, hlt⟩
    · obtain ⟨hg2, hag2, htrue, hfalse⟩ := hpost
      have hg2cell : ∀ r < rs.length, ∀ c < cs.length, Before r c row col →
          cell g2 r c = cell g r c := by
        intro r hr2 c hc2 hb
        rw [hag2 r hr2 c hc2 (by unfold Before at hb ⊢; omega), cell_putCell hg hr hc]
        have : ¬ (r = row ∧ c = col) := by unfold Before at hb; omega
        simp only [this, if_false]
      have hg2val : cell g2 row col = val := by
        rw [hag2 row hr col hc (by unfold Before; omega), cell_putCell hg hr hc]
        simp
      have hstep : ∀ s, AgreeBefore rs.length cs.length row col g0 s →
          cell s row col = val →
          AgreeBefore rs.length cs.length row (col + 1) (putCell g row col val) s := by
        intro s hs h2 r hr2 c hc2 hb
        rw [cell_putCell hg hr hc]
        by_cases hrc : r = row ∧ c = col
        · simp only [hrc, and_self, if_true]
          exact h2
        · simp only [hrc, if_false]
          rw [hs r hr2 c hc2 (by unfold Before at hb ⊢; omega),
            hag r hr2 c hc2 (by unfold Before at hb ⊢; omega)]
      rw [hres]
      cases b with
      | true =>
        left
        simp only [if_true]
        obtain ⟨hsol, hlex⟩ := htrue rfl
        refine ⟨true, g2, rfl, hg2, ?_, fun _ => ⟨?_, ?_⟩, fun h => by cases h⟩
        · intro r hr2 c hc2 hb
          rw [hg2cell r hr2 c hc2 hb, hag r hr2 c hc2 hb]
        · refine ⟨hsol.1, ?_, hsol.2.2.1, hsol.2.2.2⟩
          intro r hr2 c hc2 hb
          by_cases hrc : r = row ∧ c = col
          · rw [hrc.1, hrc.2, hg2val]
            exact ⟨hv0, hvhi.1, hvhi.2⟩
          · apply hsol.2.1 r hr2 c hc2
            unfold Before at hb ⊢
            omega
        · intro s hs hsols
          have h1 := hmin s hs hsols
          rcases eq_or_lt_of_le h1 with h2 | h2
          · exact hlex s (hstep s hs h2.symm) (solutionFrom_step hsols)
          · right
            refine ⟨row, hr, col, hc, ?_, by rw [hg2val]; exact h2⟩
            intro r hr2 c hc2 hb
            rw [hg2cell r hr2 c hc2 hb, hag r hr2 c hc2 hb, hs r hr2 c hc2 hb]
      | false =>
        simp only [Bool.false_eq_true, if_false]
        have hnone := hfalse rfl
        apply ih (val + 1) g2 hg2
        · intro r hr2 c hc2 hb
          rw [hg2cell r hr2 c hc2 hb, hag r hr2 c hc2 hb]
        · omega
        · rw [← hvn]; push_cast; ring
        · intro s hs hsols
          have h1 := hmin s hs hsols
          rcases eq_or_lt_of_le h1 with h2 | h2
          · exact absurd (solutionFrom_step hsols) (hnone s (hstep s hs h2.symm))
          · omega
    · right
      rw [hres]
      exact ⟨rfl, hlt⟩

theorem postVerdict_end_of_row {rs cs : List Int} {fb : List (List Bool)} {g g2 : Grid}
    {b : Bool} {row : Nat} (hr : row < rs.length) (hg : Shape g rs.length cs.length)
    (hsum : rowSum g row = rs.getD row 0)
    (h : PostVerdict rs cs fb (row + 1) 0 g b g2) :
    PostVerdict rs cs fb row cs.length g b g2 := by
  obtain ⟨hg2, hag, htrue, hfalse⟩ := h
  have hbef : ∀ r c, c < cs.length → (Before r c row cs.length ↔ Before r c (row + 1) 0) := by
    intro r c hc
    unfold Before
    omega
  have hconv : ∀ s, AgreeBefore rs.length cs.length row cs.length g s →
      AgreeBefore rs.length cs.length (row + 1) 0 g s :=
    fun s hs r hr2 c hc hb => hs r hr2 c hc ((hbef r c hc).mpr hb)
  have hsolconv : ∀ s, SolutionFrom rs cs fb row cs.length s →
      SolutionFrom rs cs fb (row + 1) 0 s := by
    intro s hsol
    refine ⟨hsol.1, ?_, ?_, hsol.2.2.2⟩
    · intro r hr2 c hc hb
      exact hsol.2.1 r hr2 c hc (fun hb2 => hb ((hbef r c hc).mp hb2))
    · intro r hr2 hle
      exact hsol.2.2.1 r hr2 (by omega)
  refine ⟨hg2, ?_, fun hb => ⟨?_, ?_⟩, fun hb => ?_⟩
  · intro r hr2 c hc hb
    exact hag r hr2 c hc ((hbef r c hc).mp hb)
  · obtain ⟨hsol, _⟩ := htrue hb
    refine ⟨hsol.1, ?_, ?_, hsol.2.2.2⟩
    · intro r hr2 c hc hb
      exact hsol.2.1 r hr2 c hc (fun hb2 => hb ((hbef r c hc).mpr hb2))
    · intro r hr2 hle
      rcases Nat.eq_or_lt_of_le hle with h1 | h1
      · subst h1
        rw [rowSum_congr hg hg2 hr (fun c hc => hag row hr c hc (by unfold Before; omega))]
        exact hsum
      · exact hsol.2.2.1 r hr2 (by omega)
  · intro s hs hsol
    exact (htrue hb).2 s (hconv s hs) (hsolconv s hsol)
  · intro s hs hsol
    exact hfalse hb s (hconv s hs) (hsolconv s hsol)

/-- The verdict part of the contract of `backtrack` holds for `backtrackNoReset`. -/
theorem backtrackNoReset_spec (rs cs : List Int) (fb : List (List Bool))
    (hR : 0 < rs.length) (hfb : Shape fb rs.length cs.length) :
    ∀ (fuel : Nat) (g : Grid) (row col : Nat), Shape g rs.length cs.length →
      row ≤ rs.length → col ≤ cs.length →
      (∃ b g2, backtrackNoReset fuel g rs cs fb row col = Except.ok (b, g2) ∧
        PostVerdict rs cs fb row col g b g2) ∨
      (backtrackNoReset fuel g rs cs fb row col = Except.error Fault.stackExhausted ∧
        fuel < framesNeeded rs.length cs.length row col) := by
  intro fuel
  induction fuel with
  | zero =>
    intro g row col _ _ _
    exact Or.inr ⟨rfl, framesNeeded_pos _ _ _ _⟩
  | succ fuel ih =>
    intro g row col hg hrow hcol
    rw [backtrackNoReset]
    simp only [index_row hg hR, Except.bind, hg.1, shape_row hg hR]
    rcases Nat.eq_or_lt_of_le hrow with hrow2 | hrow2
    · subst hrow2
      obtain ⟨b, hb, hiff⟩ := checkColSums_eq hg cs rfl cs.length 0 (by omega)
      simp only [if_true, hb]
      exact Or.inl ⟨b, g, rfl, postVerdict_of_post (post_end_of_grid col hg hiff)⟩
    · have hne : ¬ row = rs.length := by omega
      simp only [hne, if_false]
      rcases Nat.eq_or_lt_of_le hcol with hcol2 | hcol2
      · subst hcol2
        simp only [if_true, index_row hg hrow2, index_of_lt rs row 0 hrow2, sumInts_eq_sum]
        by_cases hsum : (g.getD row []).sum = rs.getD row 0
        · simp only [ne_eq, hsum, not_true_eq_false, if_false]
          rcases ih g (row + 1) 0 hg (by omega) (by omega) with ⟨b, g2, hres, hpost⟩ | ⟨hres, hlt⟩
          · exact Or.inl ⟨b, g2, hres, postVerdict_end_of_row hrow2 hg hsum hpost⟩
          · refine Or.inr ⟨hres, ?_⟩
            rw [framesNeeded_next_row hrow2]
            omega
        · simp only [ne_eq, hsum, not_false_eq_true, if_true]
          refine Or.inl ⟨false, g, rfl, postVerdict_of_post (post_pruned hg ?_)⟩
          intro s hs hsol
          apply hsum
          have h1 := hsol.2.2.1 row hrow2 le_rfl
          rw [rowSum_congr hg hsol.1 hrow2
            (fun c hc => hs row hrow2 c hc (by unfold Before; omega))] at h1
          exact h1
      · have hne2 : ¬ col = cs.length := by omega
        simp only [hne2, if_false, partialRowSum_eq hg hrow2 col hcol,
          index_of_lt rs row 0 hrow2]
        split
        · rename_i hprune
          refine Or.inl ⟨false, g, rfl, postVerdict_of_post (post_pruned hg ?_)⟩
          intro s hs hsol
          have := row_bounds hrow2 hcol hs hsol
          omega
        · rename_i hprune
          simp only [partialColSum_eq hg hcol2 row hrow, index_of_lt cs col 0 hcol2]
          split
          · rename_i hprune2
            refine Or.inl ⟨false, g, rfl, postVerdict_of_post (post_pruned hg ?_)⟩
            intro s hs hsol
            have := col_bounds hrow hcol2 hs hsol
            omega
          · rename_i hprune2
            have hfr : index (fb.getD row []) col = Except.ok (forcedAt fb row col) :=
              index_of_lt _ col false (by rw [shape_row hfb hrow2]; exact hcol2)
            simp only [index_row hfb hrow2, hfr]
            have key := tryValsNoReset_spec rs cs fb fuel row col hrow2 hcol2
              (fun g => backtrackNoReset fuel g rs cs fb row (col + 1))
              (fun g2 hg2 => ih g2 row (col + 1) hg2 hrow (by omega)) g
              ((if forcedAt fb row col = true then (0 : Int) else 3) + 1 - 0).toNat 0 g hg
              (fun _ _ _ _ _ => rfl) le_rfl
              (by by_cases hf : forcedAt fb row col = true <;> simp [hf])
              (fun s _ hsol => (hsol.2.1 row hrow2 col hcol2 (by unfold Before; omega)).1)
            rcases key with h | ⟨hres, hlt⟩
            · exact Or.inl h
            · refine Or.inr ⟨hres, ?_⟩
              rw [framesNeeded_next_col hrow2 hcol2]
              omega

/-! ## Every cursor -/

theorem index_of_ge {α : Type} (s : List α) (i : Nat) (h : s.length ≤ i) :
    index s i = Except.error Fault.indexOutOfRange := by
  simp [index, List.getElem?_eq_none h]

theorem partialRowSum_below {g : Grid} {row : Nat} (hrow : g.length ≤ row) :
    ∀ col, 0 < col → partialRowSum g row col = Except.error Fault.indexOutOfRange
  | 1, _ => by
    simp only [partialRowSum, index_of_ge g row hrow, Except.bind]
  | col + 2, _ => by
    rw [partialRowSum, partialRowSum_below hrow (col + 1) (by omega)]
    rfl

theorem partialRowSum_right {g : Grid} {R C : Nat} (hg : Shape g R C) {row : Nat}
    (hr : row < R) : ∀ col, C < col →
    partialRowSum g row col = Except.error Fault.indexOutOfRange
  | 0, h => by omega
  | col + 1, h => by
    rcases Nat.eq_or_lt_of_le (Nat.le_of_lt_succ h) with h1 | h1
    · subst h1
      have hlen : (g.getD row []).length ≤ C := by rw [shape_row hg hr]
      simp only [partialRowSum, partialRowSum_eq hg hr C le_rfl, index_row hg hr,
        index_of_ge _ C hlen, Except.bind]
    · rw [partialRowSum, partialRowSum_right hg hr col h1]
      rfl

/-- The contract holds for every returning call, whatever the cursor: a call
whose cursor is outside the grid (other than at its end) does not return. -/
theorem backtrack_post_any (rs cs : List Int) (fb : List (List Bool))
    (hR : 0 < rs.length) (hfb : Shape fb rs.length cs.length)
    {fuel : Nat} {g g2 : Grid} {row col : Nat} {b : Bool}
    (hg : Shape g rs.length cs.length)
    (h : backtrack fuel g rs cs fb row col = Except.ok (b, g2)) :
    Post rs cs fb row col g b g2 := by
  by_cases hin : row ≤ rs.length ∧ col ≤ cs.length
  · rcases backtrack_spec rs cs fb hR hfb fuel g row col hg hin.1 hin.2
      with ⟨b2, g3, hres, hpost⟩ | ⟨hres, _⟩
    · rw [h] at hres
      injection hres with hres
      injection hres with e1 e2
      rw [e1, e2]
      exact hpost
    · rw [h] at hres
      cases hres
  · cases fuel with
    | zero => cases h
    | succ fuel =>
      rw [backtrack] at h
      simp only [index_row hg hR, Except.bind, hg.1, shape_row hg hR] at h
      by_cases hrow : row = rs.length
      · subst hrow
        obtain ⟨b2, hb, hiff⟩ := checkColSums_eq hg cs rfl cs.length 0 (by omega)
        simp only [if_true, hb] at h
        injection h with h
        injection h with e1 e2
        rw [← e1, ← e2]
        exact post_end_of_grid col hg hiff
      · exfalso
        simp only [hrow, if_false] at h
        by_cases hrow2 : row < rs.length
        · have hcol : cs.length < col := by omega
          have hne : ¬ col = cs.length := by omega
          simp only [hne, if_false, partialRowSum_right hg hrow2 col hcol] at h
          cases h
        · have hrow3 : rs.length ≤ row := by omega
          have hrowg : g.length ≤ row := by rw [hg.1]; exact hrow3
          by_cases hcol : col = cs.length
          · simp only [hcol, if_true, index_of_ge g row hrowg] at h
            cases h
          · simp only [hcol, if_false] at h
            rcases Nat.eq_zero_or_pos col with h0 | h0
            · subst h0
              simp only [partialRowSum, index_of_ge rs row hrow3] at h
              cases h
            · simp only [partialRowSum_below hrowg col h0] at h
              cases h

/-! ## Frames used by a successful search -/

theorem tryVals_true {R C : Nat} (recurse : Grid → Except Fault (Bool × Grid))
    {row col : Nat} (hr : row < R) (hc : col < C)
    (hshape : ∀ g b g2, Shape g R C → recurse g = Except.ok (b, g2) → Shape g2 R C) :
    ∀ (n : Nat) (val : Int) (g g2 : Grid), Shape g R C →
      tryVals recurse row col n val g = Except.ok (true, g2) →
      ∃ g1, Shape g1 R C ∧ recurse g1 = Except.ok (true, g2)
  | 0, _, _, _, _, h => by
    simp only [tryVals, Except.ok.injEq, Prod.mk.injEq] at h
    exact absurd h.1 (by decide)
  | n + 1, val, g, g2, hg, h => by
    simp only [tryVals, setCell_eq hg hr hc, Except.bind] at h
    have hg1 : Shape (putCell g row col val) R C := shape_putCell hg hr val
    cases hres : recurse (putCell g row col val) with
    | error e => rw [hres] at h; cases h
    | ok res =>
      obtain ⟨b, g3⟩ := res
      rw [hres] at h
      have hg3 : Shape g3 R C := hshape _ _ _ hg1 hres
      cases b with
      | true =>
        simp only [if_true, Except.ok.injEq, Prod.mk.injEq, true_and] at h
        subst h
        exact ⟨_, hg1, hres⟩
      | false =>
        simp only [Bool.false_eq_true, if_false, setCell_eq hg3 hr hc] at h
        exact tryVals_true recurse hr hc hshape n (val + 1) _ g2 (shape_putCell hg3 hr 0) h

/-- A call that returns true has walked to the end of the grid: it used every
one of the `framesNeeded` frames. -/
theorem backtrack_true_frames (rs cs : List Int) (fb : List (List Bool))
    (hR : 0 < rs.length) (hfb : Shape fb rs.length cs.length) :
    ∀ (fuel : Nat) (g g2 : Grid) (row col : Nat), Shape g rs.length cs.length →
      row ≤ rs.length → col ≤ cs.length →
      backtrack fuel g rs cs fb row col = Except.ok (true, g2) →
      framesNeeded rs.length cs.length row col ≤ fuel := by
  intro fuel
  induction fuel with
  | zero =>
    intro g g2 row col _ _ _ h
    cases h
  | succ fuel ih =>
    intro g g2 row col hg hrow hcol h
    rw [backtrack] at h
    simp only [index_row hg hR, Except.bind, hg.1, shape_row hg hR] at h
    rcases Nat.eq_or_lt_of_le hrow with hrow2 | hrow2
    · subst hrow2
      unfold framesNeeded
      rw [if_pos le_rfl]
      omega
    · have hne : ¬ row = rs.length := by omega
      simp only [hne, if_false] at h
      rcases Nat.eq_or_lt_of_le hcol with hcol2 | hcol2
      · subst hcol2
        simp only [if_true, index_row hg hrow2, index_of_lt rs row 0 hrow2] at h
        split at h
        · simp only [Except.ok.injEq, Prod.mk.injEq] at h
          exact absurd h.1 (by decide)
        · have := ih g g2 (row + 1) 0 hg (by omega) (by omega) h
          rw [framesNeeded_next_row hrow2]
          omega
      · have hne2 : ¬ col = cs.length := by omega
        simp only [hne2, if_false, partialRowSum_eq hg hrow2 col hcol,
          index_of_lt rs row 0 hrow2] at h
        split at h
        · simp only [Except.ok.injEq, Prod.mk.injEq] at h
          exact absurd h.1 (by decide)
        · simp only [partialColSum_eq hg hcol2 row hrow, index_of_lt cs col 0 hcol2] at h
          split at h
          · simp only [Except.ok.injEq, Prod.mk.injEq] at h
            exact absurd h.1 (by decide)
          · have hfr : index (fb.getD row []) col = Except.ok (forcedAt fb row col) :=
              index_of_lt _ col false (by rw [shape_row hfb hrow2]; exact hcol2)
            simp only [index_row hfb hrow2, hfr] at h
            obtain ⟨g1, hg1, hrec⟩ := tryVals_true
              (fun g => backtrack fuel g rs cs fb row (col + 1)) hrow2 hcol2
              (fun g3 b g4 hg3 hres =>
                (backtrack_post_any rs cs fb hR hfb hg3 hres).1) _ _ g g2 hg h
            have := ih g1 g2 row (col + 1) hg1 hrow (by omega) hrec
            rw [framesNeeded_next_col hrow2 hcol2]
            omega

/-! ## Where the search writes -/

theorem tryValsLog_positions (recL : Grid → Except Fault (Bool × Grid × List Write))
    (row col : Nat)
    (hrec : ∀ g, AllWrites (fun w => ¬ Before w.row w.col row (col + 1)) (recL g)) :
    ∀ (n : Nat) (val : Int) (g : Grid),
    AllWrites (fun w => ¬ Before w.row w.col row col) (tryValsLog recL row col n val g)
  | 0, _, _ => allWrites_nil _ _
  | n + 1, val, g => by
    have hself : ¬ Before row col row col := by unfold Before; omega
    have hstep : ∀ w : Write, ¬ Before w.row w.col row (col + 1) →
        ¬ Before w.row w.col row col := by
      intro w hw hb
      apply hw
      unfold Before at hb ⊢
      omega
    rw [tryValsLog]
    apply allWrites_bind
    intro g1
    have hr := hrec g1
    cases h2 : recL g1 with
    | error e => exact True.intro
    | ok res =>
      rw [h2] at hr
      simp only [Except.bind]
      cases h3 : res.1 with
      | true =>
        simp only [if_true]
        intro w hw
        rcases List.mem_cons.mp hw with h | h
        · rw [h]; exact hself
        · exact hstep w (hr w h)
      | false =>
        simp only [Bool.false_eq_true, if_false]
        cases h4s : setCell res.2.1 row col 0 with
        | error e => exact True.intro
        | ok g2 =>
          dsimp only
          have ih := tryValsLog_positions recL row col hrec n (val + 1) g2
          cases h5 : tryValsLog recL row col n (val + 1) g2 with
          | error e => exact True.intro
          | ok rest =>
            rw [h5] at ih
            intro w hw
            rcases List.mem_cons.mp hw with h | h
            · rw [h]; exact hself
            · rcases List.mem_append.mp h with h | h
              · exact hstep w (hr w h)
              · rcases List.mem_cons.mp h with h | h
                · rw [h]; exact hself
                · exact ih w h

theorem allWrites_mono {P Q : Write → Prop} (h : ∀ w, P w → Q w)
    (x : Except Fault (Bool × Grid × List Write)) (hx : AllWrites P x) : AllWrites Q x := by
  cases x with
  | error e => exact True.intro
  | ok res => exact fun w hw => h w (hx w hw)

/-- No assignment of a call at cursor `(row, col)` targets a cell before the
cursor. -/
theorem backtrackLog_positions (rs cs : List Int) (fb : List (List Bool)) :
    ∀ (fuel : Nat) (g : Grid) (row col : Nat),
    AllWrites (fun w => ¬ Before w.row w.col row col) (backtrackLog fuel g rs cs fb row col)
  | 0, _, _, _ => True.intro
  | fuel + 1, g, row, col => by
    rw [backtrackLog]
    apply allWrites_bind; intro row0
    simp only
    split
    · apply allWrites_bind; intro ok
      exact allWrites_nil _ _
    · split
      · apply allWrites_bind; intro r
        apply allWrites_bind; intro rowTarget
        split
        · exact allWrites_nil _ _
        · apply allWrites_mono _ _ (backtrackLog_positions rs cs fb fuel g (row + 1) 0)
          intro w hw hb
          apply hw
          unfold Before at hb ⊢
          omega
      · apply allWrites_bind; intro partialRow
        apply allWrites_bind; intro rowTarget
        split
        · exact allWrites_nil _ _
        · apply allWrites_bind; intro partialCol
          apply allWrites_bind; intro colTarget
          split
          · exact allWrites_nil _ _
          · apply allWrites_bind; intro fr
            apply allWrites_bind; intro forced
            exact tryValsLog_positions _ row col
              (fun g2 => backtrackLog_positions rs cs fb fuel g2 row (col + 1)) _ _ _

/-! ## Reading a contract -/

theorem spec_ok {x : Except Fault (Bool × Grid)} {P : Bool → Grid → Prop} {n fuel : Nat}
    (hspec : (∃ b g2, x = Except.ok (b, g2) ∧ P b g2) ∨
      (x = Except.error Fault.stackExhausted ∧ fuel < n))
    {b : Bool} {g2 : Grid} (h : x = Except.ok (b, g2)) : P b g2 := by
  rcases hspec with ⟨b2, g3, hres, hp⟩ | ⟨hres, _⟩
  · rw [h] at hres
    injection hres with hres
    injection hres with e1 e2
    rw [e1, e2]
    exact hp
  · rw [h] at hres
    cases hres

theorem spec_returns {x : Except Fault (Bool × Grid)} {P : Bool → Grid → Prop} {n fuel : Nat}
    (hspec : (∃ b g2, x = Except.ok (b, g2) ∧ P b g2) ∨
      (x = Except.error Fault.stackExhausted ∧ fuel < n))
    (hfuel : n ≤ fuel) : ∃ b g2, x = Except.ok (b, g2) ∧ P b g2 := by
  rcases hspec with h | ⟨_, hlt⟩
  · exact h
  · omega

theorem framesNeeded_le (R C row col : Nat) :
    framesNeeded R C row col ≤ R * (C + 1) + 1 := by
  unfold framesNeeded
  split
  · omega
  · rename_i h
    have h1 : (R - 1 - row) * (C + 1) ≤ (R - 1) * (C + 1) :=
      Nat.mul_le_mul_right _ (by omega)
    have h2 : R * (C + 1) = (R - 1) * (C + 1) + (C + 1) := by
      have h3 : R = (R - 1) + 1 := by omega
      conv_lhs => rw [h3, Nat.add_mul, Nat.one_mul]
    omega

/-- From the start cursor on the all-zero grid, `backtrack` and `backtrackNoPrune`
return the same result whenever both return. -/
theorem noPrune_same {rs cs : List Int} {fb : List (List Bool)}
    (hv : ShapeValid rs cs fb) {fuel1 fuel2 : Nat} {r1 r2 : Bool × Grid}
    (h1 : backtrack fuel1 (zeroGrid rs.length cs.length) rs cs fb 0 0 = Except.ok r1)
    (h2 : backtrackNoPrune fuel2 (zeroGrid rs.length cs.length) rs cs fb 0 0
      = Except.ok r2) : r1 = r2 := by
  obtain ⟨b1, g1⟩ := r1
  obtain ⟨b2, g2⟩ := r2
  have p1 := backtrack_post hv (shape_zeroGrid _ _) h1
  have p2 : Post rs cs fb 0 0 (zeroGrid rs.length cs.length) b2 g2 :=
    spec_ok (backtrackNoPrune_spec rs cs fb hv.1 hv.2 fuel2 _ 0 0 (shape_zeroGrid _ _)
      (Nat.zero_le _) (Nat.zero_le _)) h2
  obtain ⟨e1, e2⟩ := postVerdict_unique (postVerdict_of_post p1) (postVerdict_of_post p2)
  subst e1
  cases b1 with
  | true => rw [e2 rfl]
  | false =>
    rw [eq_zeroGrid_of_sameOrZero p1.1 (p1.2.2.2 rfl).2,
      eq_zeroGrid_of_sameOrZero p2.1 (p2.2.2.2 rfl).2]

/-- From the start cursor on the all-zero grid, `backtrack` and `backtrackNoReset`
return the same verdict, and the same grid when the verdict is true, whenever
both return. -/
theorem noReset_same {rs cs : List Int} {fb : List (List Bool)}
    (hv : ShapeValid rs cs fb) {fuel1 fuel2 : Nat} {b1 b2 : Bool} {g1 g2 : Grid}
    (h1 : backtrack fuel1 (zeroGrid rs.length cs.length) rs cs fb 0 0 = Except.ok (b1, g1))
    (h2 : backtrackNoReset fuel2 (zeroGrid rs.length cs.length) rs cs fb 0 0
      = Except.ok (b2, g2)) : b1 = b2 ∧ (b1 = true → g1 = g2) := by
  have p1 := backtrack_post hv (shape_zeroGrid _ _) h1
  have p2 : PostVerdict rs cs fb 0 0 (zeroGrid rs.length cs.length) b2 g2 :=
    spec_ok (backtrackNoReset_spec rs cs fb hv.1 hv.2 fuel2 _ 0 0 (shape_zeroGrid _ _)
      (Nat.zero_le _) (Nat.zero_le _)) h2
  exact postVerdict_unique (postVerdict_of_post p1) p2

theorem noReset_returns {rs cs : List Int} {fb : List (List Bool)}
    (hv : ShapeValid rs cs fb) {fuel : Nat}
    (hfuel : rs.length * (cs.length + 1) + 1 ≤ fuel) :
    ∃ b g2, backtrackNoReset fuel (zeroGrid rs.length cs.length) rs cs fb 0 0
      = Except.ok (b, g2) := by
  have hspec := backtrackNoReset_spec rs cs fb hv.1 hv.2 fuel _ 0 0 (shape_zeroGrid _ _)
    (Nat.zero_le _) (Nat.zero_le _)
  rw [framesNeeded_start _ hv.1] at hspec
  obtain ⟨b, g2, h, _⟩ := spec_returns hspec hfuel
  exact ⟨b, g2, h⟩

/-! ## Sums of 64-bit integers -/

theorem wrapInt_of_fits {x : Int} (h : FitsInt x) : wrapInt x = x := by
  unfold FitsInt at h
  unfold wrapInt
  omega

theorem wrapInt_add_wrap (a b : Int) : wrapInt (wrapInt a + b) = wrapInt (a + b) := by
  unfold wrapInt
  omega

theorem foldl_wrap (l : List Int) : ∀ acc : Int,
    l.foldl (fun sum v => wrapInt (sum + v)) (wrapInt acc)
      = wrapInt (l.foldl (fun sum v => sum + v) acc) := by
  induction l with
  | nil => intro acc; rfl
  | cons a t ih =>
    intro acc
    simp only [List.foldl_cons]
    rw [wrapInt_add_wrap, ih]

/-- Adding with wrap-around at every step gives the exact sum, wrapped once. -/
theorem sumInts64_eq_wrap (l : List Int) : sumInts64 l = wrapInt (sumInts l) := by
  have h := foldl_wrap l 0
  rw [show wrapInt 0 = 0 from rfl] at h
  exact h

/-- A sum that fits in an `int` is what the wrapping additions compute. -/
theorem sumInts64_of_fits {l : List Int} (h : FitsInt (sumInts l)) :
    sumInts64 l = sumInts l := by
  rw [sumInts64_eq_wrap, wrapInt_of_fits h]

/-- On the targets `[9223372036854775807, 1]` and `[-9223372036854775808]` the
exact totals differ, the 64-bit totals agree, and `solvePuzzle` goes past line 44
and runs the search, which fails. -/
theorem solvePuzzle_wrapped_totals :
    sumInts [9223372036854775807, 1] ≠ sumInts [-9223372036854775808] ∧
    sumInts64 [9223372036854775807, 1] = sumInts64 [-9223372036854775808] ∧
    solvePuzzle 1 [-9223372036854775808] [9223372036854775807, 1] [[48], [48]]
      = Outcome.noSolution :=
  ⟨by decide, by decide, rfl⟩

/-- On the grid `[[9223372036854775807],[1]]` the exact sum of column 0 does not
fit in an `int`, and the sum Go forms wraps to `-9223372036854775808`: the
terminal check of the code compares that value with the target. -/
theorem column_sum_wraps :
    colSum [[9223372036854775807], [1]] 0 = 9223372036854775808 ∧
    ¬ FitsInt (colSum [[9223372036854775807], [1]] 0) ∧
    sumInts64 (([[9223372036854775807], [1]] : Grid).map fun row => row.getD 0 0)
      = -9223372036854775808 :=
  ⟨by decide, by decide, by decide⟩

/-! ## The claims -/

/-- C1 (soundness).  On a shape-valid instance, when `backtrack` started at
`(0,0)` on the all-zero grid returns true, the grid it leaves has the
instance's shape, every row `r` sums to `rowSums[r]` and every column `c` sums to
`colSums[c]`. -/
theorem backtrack_sound (rowSums colSums : List Int) (forcedBlanks : List (List Bool))
    (fuel : Nat) (grid : Grid)
    (hv : ShapeValid rowSums colSums forcedBlanks)
    (h : backtrack fuel (zeroGrid rowSums.length colSums.length) rowSums colSums
      forcedBlanks 0 0 = Except.ok (true, grid)) :
    Shape grid rowSums.length colSums.length ∧
    (∀ r < rowSums.length, rowSum grid r = rowSums.getD r 0) ∧
    (∀ c < colSums.length, colSum grid c = colSums.getD c 0) := by
  have hp := backtrack_post hv (shape_zeroGrid _ _) h
  obtain ⟨hsol, _⟩ := hp.2.2.1 rfl
  exact ⟨hsol.1, fun r hr => hsol.2.2.1 r hr (Nat.zero_le r), hsol.2.2.2⟩

/-- C2 (completeness).  On a shape-valid instance that has a valid solution `s`,
`backtrack` started at `(0,0)` on the all-zero grid returns true as soon as it has
`R*(C+1)+1` stack frames, and with no stack budget does it return false. -/
theorem backtrack_complete (rowSums colSums : List Int) (forcedBlanks : List (List Bool))
    (s : Grid)
    (hv : ShapeValid rowSums colSums forcedBlanks)
    (hs : ValidSolution rowSums colSums forcedBlanks s) :
    (∀ fuel, rowSums.length * (colSums.length + 1) + 1 ≤ fuel →
      ∃ grid, backtrack fuel (zeroGrid rowSums.length colSums.length) rowSums colSums
        forcedBlanks 0 0 = Except.ok (true, grid)) ∧
    (∀ fuel grid, backtrack fuel (zeroGrid rowSums.length colSums.length) rowSums colSums
        forcedBlanks 0 0 ≠ Except.ok (false, grid)) := by
  have hno : ∀ fuel grid, backtrack fuel (zeroGrid rowSums.length colSums.length) rowSums
      colSums forcedBlanks 0 0 ≠ Except.ok (false, grid) := by
    intro fuel grid h
    have hp := backtrack_post hv (shape_zeroGrid _ _) h
    exact (hp.2.2.2 rfl).1 s (agreeBefore_start _ _ _ _) ((validSolution_iff _ _ _ _).mp hs)
  refine ⟨?_, hno⟩
  intro fuel hfuel
  obtain ⟨b, g2, hres, _⟩ := backtrack_returns hv _ (shape_zeroGrid _ _) hfuel
  cases b with
  | true => exact ⟨g2, hres⟩
  | false => exact absurd hres (hno fuel g2)

/-- C3 (forced zeros).  On a shape-valid instance, when `backtrack` started at
`(0,0)` on the all-zero grid returns true, every cell `(r,c)` with
`forcedBlanks[r][c] = true` holds 0 in the grid it leaves. -/
theorem backtrack_forced_zero (rowSums colSums : List Int) (forcedBlanks : List (List Bool))
    (fuel : Nat) (grid : Grid)
    (hv : ShapeValid rowSums colSums forcedBlanks)
    (h : backtrack fuel (zeroGrid rowSums.length colSums.length) rowSums colSums
      forcedBlanks 0 0 = Except.ok (true, grid)) :
    ∀ r < rowSums.length, ∀ c < colSums.length,
      forcedAt forcedBlanks r c = true → cell grid r c = 0 := by
  have hp := backtrack_post hv (shape_zeroGrid _ _) h
  obtain ⟨hsol, _⟩ := hp.2.2.1 rfl
  intro r hr c hc hf
  exact (hsol.2.1 r hr c hc (by unfold Before; omega)).2.2 hf

/-- C4 (lexicographic minimality).  On a shape-valid instance, when `backtrack`
started at `(0,0)` on the all-zero grid returns true, the grid it leaves, read in
row-major order, is lexicographically less than or equal to every valid
solution `s`. -/
theorem backtrack_lex_min (rowSums colSums : List Int) (forcedBlanks : List (List Bool))
    (fuel : Nat) (grid s : Grid)
    (hv : ShapeValid rowSums colSums forcedBlanks)
    (h : backtrack fuel (zeroGrid rowSums.length colSums.length) rowSums colSums
      forcedBlanks 0 0 = Except.ok (true, grid))
    (hs : ValidSolution rowSums colSums forcedBlanks s) :
    grid.flatten ≤ s.flatten := by
  have hp := backtrack_post hv (shape_zeroGrid _ _) h
  obtain ⟨hsol, hlex⟩ := hp.2.2.1 rfl
  exact flatten_le_of_lexLE hsol.1 hs.1
    (hlex s (agreeBefore_start _ _ _ _) ((validSolution_iff _ _ _ _).mp hs))

/-- C5 (sum mismatch).  When the row sums and the column sums have different
totals, on every shape-valid instance `backtrack` started at `(0,0)` on the
all-zero grid never returns true, and returns false (leaving the grid all zero)
as soon as it has `R*(C+1)+1` stack frames.  When the totals `solvePuzzle` forms
at line 44, with 64-bit wrap-around, differ, it ends with the sum-mismatch
message whatever the patterns, whatever the number of rows, and even with a
stack budget of 0, under which any call of `backtrack` would fail: it does not
call `backtrack`.  Totals that differ at line 44 differ exactly, and totals
that fit in an `int` differ at line 44 as soon as they differ. -/
theorem sum_mismatch_infeasible (rowSums colSums : List Int) :
    (∀ forcedBlanks, ShapeValid rowSums colSums forcedBlanks →
      sumInts rowSums ≠ sumInts colSums →
      (∀ fuel grid, backtrack fuel (zeroGrid rowSums.length colSums.length) rowSums colSums
          forcedBlanks 0 0 ≠ Except.ok (true, grid)) ∧
      (∀ fuel, rowSums.length * (colSums.length + 1) + 1 ≤ fuel →
        backtrack fuel (zeroGrid rowSums.length colSums.length) rowSums colSums
          forcedBlanks 0 0 = Except.ok (false, zeroGrid rowSums.length colSums.length))) ∧
    (sumInts64 rowSums ≠ sumInts64 colSums →
      ∀ fuel patterns, solvePuzzle fuel colSums rowSums patterns = Outcome.sumMismatch) ∧
    (sumInts64 rowSums ≠ sumInts64 colSums → sumInts rowSums ≠ sumInts colSums) ∧
    (FitsInt (sumInts rowSums) → FitsInt (sumInts colSums) →
      sumInts rowSums ≠ sumInts colSums → sumInts64 rowSums ≠ sumInts64 colSums) := by
  refine ⟨?_, ?_, ?_, ?_⟩
  · intro forcedBlanks hv hne
    have hno : ∀ fuel grid, backtrack fuel (zeroGrid rowSums.length colSums.length) rowSums
        colSums forcedBlanks 0 0 ≠ Except.ok (true, grid) := by
      intro fuel grid h
      have hp := backtrack_post hv (shape_zeroGrid _ _) h
      obtain ⟨hsol, _⟩ := hp.2.2.1 rfl
      apply hne
      rw [sumInts_eq_sum, sumInts_eq_sum]
      exact total_eq_of_solution hsol
    refine ⟨hno, ?_⟩
    intro fuel hfuel
    obtain ⟨b, g2, hres, hp⟩ := backtrack_returns hv _ (shape_zeroGrid _ _) hfuel
    cases b with
    | true => exact absurd hres (hno fuel g2)
    | false =>
      rw [hres, eq_zeroGrid_of_sameOrZero hp.1 (hp.2.2.2 rfl).2]
  · intro hne fuel patterns
    unfold solvePuzzle
    simp only [hne, ne_eq, not_false_eq_true, if_true]
  · intro hne h
    apply hne
    rw [sumInts64_eq_wrap, sumInts64_eq_wrap, h]
  · intro hr hc hne h
    apply hne
    rw [← sumInts64_of_fits hr, ← sumInts64_of_fits hc]
    exact h

/-- C6 (value domain).  On a shape-valid instance, when `backtrack` started at
`(0,0)` on the all-zero grid returns true, every cell of the grid it leaves is in
`0..3`; and every returning call of `backtrack`, at any cursor and on any grid,
is a run of the logging search whose every assignment stores a value in `0..3`. -/
theorem backtrack_values (rowSums colSums : List Int) (forcedBlanks : List (List Bool))
    (hv : ShapeValid rowSums colSums forcedBlanks) :
    (∀ fuel grid, backtrack fuel (zeroGrid rowSums.length colSums.length) rowSums colSums
        forcedBlanks 0 0 = Except.ok (true, grid) →
      ∀ r < rowSums.length, ∀ c < colSums.length, 0 ≤ cell grid r c ∧ cell grid r c ≤ 3) ∧
    (∀ fuel g row col b grid,
      backtrack fuel g rowSums colSums forcedBlanks row col = Except.ok (b, grid) →
      ∃ writes, backtrackLog fuel g rowSums colSums forcedBlanks row col
          = Except.ok (b, grid, writes) ∧
        ∀ w ∈ writes, 0 ≤ w.val ∧ w.val ≤ 3) := by
  constructor
  · intro fuel grid h r hr c hc
    have hp := backtrack_post hv (shape_zeroGrid _ _) h
    obtain ⟨hsol, _⟩ := hp.2.2.1 rfl
    have := hsol.2.1 r hr c hc (by unfold Before; omega)
    exact ⟨this.1, this.2.1⟩
  · intro fuel g row col b grid h
    have he := backtrackLog_erase rowSums colSums forcedBlanks fuel g row col
    have hw := backtrackLog_writes rowSums colSums forcedBlanks fuel g row col
    cases hl : backtrackLog fuel g rowSums colSums forcedBlanks row col with
    | error e =>
      rw [hl, h] at he
      cases he
    | ok res =>
      rw [hl] at hw
      rw [hl, h] at he
      obtain ⟨b2, grid2, writes⟩ := res
      simp only [eraseLog, Except.ok.injEq, Prod.mk.injEq] at he
      rw [he.1, he.2]
      exact ⟨writes, rfl, hw⟩

/-- C7 (1×1 boundary).  For the 1×1 instance with `rowSums = [a]`,
`colSums = [b]`, mask `[[f]]` and the all-zero grid, `backtrack` from `(0,0)` with
at least 3 stack frames returns true with grid `[[a]]` when `a = b` and `a` is in
the cell's domain (`{0}` if forced, `0..3` otherwise), and returns false with
grid `[[0]]` otherwise. -/
theorem backtrack_one_by_one (a b : Int) (f : Bool) (fuel : Nat) (hfuel : 3 ≤ fuel) :
    backtrack fuel [[0]] [a] [b] [[f]] 0 0 =
      Except.ok (if a = b ∧ 0 ≤ a ∧ a ≤ (if f = true then 0 else 3)
        then (true, [[a]]) else (false, [[0]])) := by
  have hv : ShapeValid [a] [b] [[f]] :=
    ⟨Nat.one_pos, rfl, fun x hx => by rw [List.mem_singleton.mp hx]; rfl⟩
  have hz : Shape ([[0]] : Grid) [a].length [b].length := shape_singleton 0
  obtain ⟨v, g2, hres, hp⟩ := backtrack_returns hv [[0]] hz (by simpa using hfuel)
  have hg2 : Shape g2 1 1 := hp.1
  have hdom : ∀ x : Int, CellOk [[f]] 0 0 x ↔ 0 ≤ x ∧ x ≤ (if f = true then 0 else 3) := by
    intro x
    unfold CellOk forcedAt
    cases f
    · simp
    · simp; omega
  rw [hres]
  by_cases hc : a = b ∧ 0 ≤ a ∧ a ≤ (if f = true then 0 else 3)
  · rw [if_pos hc]
    have hsol : SolutionFrom [a] [b] [[f]] 0 0 [[a]] := by
      refine ⟨shape_singleton a, ?_, ?_, ?_⟩
      · intro r hr c2 hc2 _
        have h1 : r = 0 := by simp at hr; omega
        have h2 : c2 = 0 := by simp at hc2; omega
        rw [h1, h2]
        exact (hdom a).mpr hc.2
      · intro r hr _
        have h1 : r = 0 := by simp at hr; omega
        rw [h1]
        simp [rowSum]
      · intro c2 hc2
        have h2 : c2 = 0 := by simp at hc2; omega
        rw [h2]
        simp [colSum, hc.1]
    cases v with
    | false => exact absurd hsol ((hp.2.2.2 rfl).1 _ (agreeBefore_start _ _ _ _))
    | true =>
      obtain ⟨hsol2, _⟩ := hp.2.2.1 rfl
      have h1 := hsol2.2.2.1 0 Nat.one_pos le_rfl
      rw [(one_by_one_cell hg2).1] at h1
      rw [one_by_one_eq hg2, h1]
      rfl
  · rw [if_neg hc]
    cases v with
    | true =>
      exfalso
      obtain ⟨hsol2, _⟩ := hp.2.2.1 rfl
      have h1 := hsol2.2.2.1 0 Nat.one_pos le_rfl
      have h2 := hsol2.2.2.2 0 Nat.one_pos
      have h3 := (hdom _).mp (hsol2.2.1 0 Nat.one_pos 0 Nat.one_pos (by unfold Before; omega))
      rw [(one_by_one_cell hg2).1] at h1
      rw [(one_by_one_cell hg2).2] at h2
      simp only [List.getD_cons_zero] at h1 h2
      rw [h1] at h2 h3
      exact hc ⟨h2, h3⟩
    | false =>
      have := eq_zeroGrid_of_sameOrZero hg2 (hp.2.2.2 rfl).2
      rw [this]
      rfl

/-- C8 (2×2 scenario).  For `rowSums = [3,3]`, `colSums = [3,3]`, no forced cell
and the all-zero grid, `backtrack` from `(0,0)` with at least 7 stack frames returns
true and leaves `[[0,3],[3,0]]`; `[[3,0],[0,3]]` and `[[0,3],[3,0]]` are valid
solutions; and `[[0,3],[3,0]]` is lexicographically least among the valid
solutions. -/
theorem backtrack_two_by_two :
    (∀ fuel, 7 ≤ fuel →
      backtrack fuel (zeroGrid 2 2) [3, 3] [3, 3] [[false, false], [false, false]] 0 0
        = Except.ok (true, [[0, 3], [3, 0]])) ∧
    ValidSolution [3, 3] [3, 3] [[false, false], [false, false]] [[3, 0], [0, 3]] ∧
    ValidSolution [3, 3] [3, 3] [[false, false], [false, false]] [[0, 3], [3, 0]] ∧
    (∀ s, ValidSolution [3, 3] [3, 3] [[false, false], [false, false]] s →
      ([[0, 3], [3, 0]] : Grid).flatten ≤ s.flatten) := by
  have hv : ShapeValid [3, 3] [3, 3] [[false, false], [false, false]] := by decide
  have h7 : backtrack 7 (zeroGrid 2 2) [3, 3] [3, 3] [[false, false], [false, false]] 0 0
      = Except.ok (true, [[0, 3], [3, 0]]) := rfl
  refine ⟨?_, by decide, by decide, ?_⟩
  · intro fuel hfuel
    obtain ⟨b, g2, hres, _⟩ := backtrack_returns hv _ (shape_zeroGrid 2 2)
      (show [3, 3].length * ([3, 3].length + 1) + 1 ≤ fuel from hfuel)
    obtain ⟨e1, e2⟩ := verdict_unique hv (shape_zeroGrid 2 2) (shape_zeroGrid 2 2) h7 hres
    rw [hres, ← e1, ← e2 rfl]
  · intro s hs
    have hp := backtrack_post hv (shape_zeroGrid 2 2) h7
    obtain ⟨hsol, hlex⟩ := hp.2.2.1 rfl
    exact flatten_le_of_lexLE hsol.1 hs.1
      (hlex s (agreeBefore_start _ _ _ _) ((validSolution_iff _ _ _ _).mp hs))

/-- C9 (no crash).  On a shape-valid instance and any grid of the instance's
shape, whatever integers the sums and the grid hold, `backtrack` started at
`(0,0)` never indexes a slice out of range, and returns as soon as it has
`R*(C+1)+1` stack frames; the call made by `solvePuzzle` never indexes out of
range either when there is at least one row. -/
theorem backtrack_no_panic (rowSums colSums : List Int) (forcedBlanks : List (List Bool))
    (grid : Grid)
    (hv : ShapeValid rowSums colSums forcedBlanks)
    (hg : Shape grid rowSums.length colSums.length) :
    (∀ fuel, backtrack fuel grid rowSums colSums forcedBlanks 0 0
        ≠ Except.error Fault.indexOutOfRange) ∧
    (∀ fuel, rowSums.length * (colSums.length + 1) + 1 ≤ fuel →
      ∃ b g2, backtrack fuel grid rowSums colSums forcedBlanks 0 0 = Except.ok (b, g2)) ∧
    (∀ fuel patterns, solvePuzzle fuel colSums rowSums patterns
        ≠ Outcome.crashed Fault.indexOutOfRange) := by
  have hsafe : ∀ (fb : List (List Bool)), Shape fb rowSums.length colSums.length →
      ∀ (fuel : Nat) (g : Grid), Shape g rowSums.length colSums.length →
      backtrack fuel g rowSums colSums fb 0 0 ≠ Except.error Fault.indexOutOfRange := by
    intro fb hfb fuel g hg2 h
    rcases backtrack_spec rowSums colSums fb hv.1 hfb fuel g 0 0 hg2
      (Nat.zero_le _) (Nat.zero_le _) with ⟨b, g2, hres, _⟩ | ⟨hres, _⟩
    · rw [h] at hres; cases hres
    · rw [h] at hres; cases hres
  refine ⟨fun fuel => hsafe forcedBlanks hv.2 fuel grid hg, ?_, ?_⟩
  · intro fuel hfuel
    obtain ⟨b, g2, hres, _⟩ := backtrack_returns hv grid hg hfuel
    exact ⟨b, g2, hres⟩
  · intro fuel patterns h
    unfold solvePuzzle at h
    simp only at h
    split at h
    · cases h
    · split at h
      · cases h
      · rename_i fb hfb
        have hshape := readForcedBlanks_shape _ _ _ _ hfb
        have := hsafe fb hshape fuel _ (shape_zeroGrid _ _)
        split at h
        · rename_i f hf
          injection h with h
          rw [h] at hf
          exact this hf
        · cases h
        · cases h

/-- C10 (independence from the prior grid state).  On a shape-valid instance and
any two grids `g1`, `g2` of the instance's shape with arbitrary integer contents:
whenever `backtrack` from `(0,0)` returns on both, the two verdicts are equal, and
the two final grids are equal when the verdict is true; and with `R*(C+1)+1`
stack frames it returns on both. -/
theorem backtrack_independent_of_grid (rowSums colSums : List Int)
    (forcedBlanks : List (List Bool)) (g1 g2 : Grid)
    (hv : ShapeValid rowSums colSums forcedBlanks)
    (hg1 : Shape g1 rowSums.length colSums.length)
    (hg2 : Shape g2 rowSums.length colSums.length) :
    (∀ fuel1 fuel2 b1 b2 r1 r2,
      backtrack fuel1 g1 rowSums colSums forcedBlanks 0 0 = Except.ok (b1, r1) →
      backtrack fuel2 g2 rowSums colSums forcedBlanks 0 0 = Except.ok (b2, r2) →
      b1 = b2 ∧ (b1 = true → r1 = r2)) ∧
    (∀ fuel, rowSums.length * (colSums.length + 1) + 1 ≤ fuel →
      ∃ b r1 r2,
        backtrack fuel g1 rowSums colSums forcedBlanks 0 0 = Except.ok (b, r1) ∧
        backtrack fuel g2 rowSums colSums forcedBlanks 0 0 = Except.ok (b, r2) ∧
        (b = true → r1 = r2)) := by
  constructor
  · intro fuel1 fuel2 b1 b2 r1 r2 h1 h2
    exact verdict_unique hv hg1 hg2 h1 h2
  · intro fuel hfuel
    obtain ⟨b1, r1, h1, _⟩ := backtrack_returns hv g1 hg1 hfuel
    obtain ⟨b2, r2, h2, _⟩ := backtrack_returns hv g2 hg2 hfuel
    obtain ⟨e1, e2⟩ := verdict_unique hv hg1 hg2 h1 h2
    subst e1
    exact ⟨b1, r1, r2, h1, h2, e2⟩

/-- C11 (termination).  On a shape-valid instance, for every grid of the
instance's shape and every cursor `(row, col)` with `row ≤ R` and `col ≤ C`,
`backtrack` returns a verdict as soon as it has `framesNeeded R C row col` stack
frames, which is at most `R*(C+1)+1`; this measure of the cursor's row-major
position drops at each of the two recursive calls. -/
theorem backtrack_terminates (rowSums colSums : List Int) (forcedBlanks : List (List Bool))
    (grid : Grid) (row col fuel : Nat)
    (hv : ShapeValid rowSums colSums forcedBlanks)
    (hg : Shape grid rowSums.length colSums.length)
    (hrow : row ≤ rowSums.length) (hcol : col ≤ colSums.length)
    (hfuel : framesNeeded rowSums.length colSums.length row col ≤ fuel) :
    (∃ b g2, backtrack fuel grid rowSums colSums forcedBlanks row col = Except.ok (b, g2)) ∧
    framesNeeded rowSums.length colSums.length row col
      ≤ rowSums.length * (colSums.length + 1) + 1 ∧
    (row < rowSums.length → col < colSums.length →
      framesNeeded rowSums.length colSums.length row (col + 1)
        < framesNeeded rowSums.length colSums.length row col) ∧
    (row < rowSums.length →
      framesNeeded rowSums.length colSums.length (row + 1) 0
        < framesNeeded rowSums.length colSums.length row colSums.length) := by
  refine ⟨?_, framesNeeded_le _ _ _ _, ?_, ?_⟩
  · obtain ⟨b, g2, h, _⟩ := spec_returns
      (backtrack_spec rowSums colSums forcedBlanks hv.1 hv.2 fuel grid row col hg hrow hcol)
      hfuel
    exact ⟨b, g2, h⟩
  · intro hr hc
    rw [framesNeeded_next_col hr hc]
    omega
  · intro hr
    rw [framesNeeded_next_row hr]
    omega

/-- C12 (pruning is a pure optimisation).  On a shape-valid instance and the
all-zero grid, whenever `backtrack` and `backtrackNoPrune` from `(0,0)` both
return they return the same verdict and leave the same grid, and with
`R*(C+1)+1` stack frames both return. -/
theorem pruning_is_optimisation (rowSums colSums : List Int)
    (forcedBlanks : List (List Bool))
    (hv : ShapeValid rowSums colSums forcedBlanks) :
    (∀ fuel1 fuel2 r1 r2,
      backtrack fuel1 (zeroGrid rowSums.length colSums.length) rowSums colSums
        forcedBlanks 0 0 = Except.ok r1 →
      backtrackNoPrune fuel2 (zeroGrid rowSums.length colSums.length) rowSums colSums
        forcedBlanks 0 0 = Except.ok r2 →
      r1 = r2) ∧
    (∀ fuel, rowSums.length * (colSums.length + 1) + 1 ≤ fuel →
      ∃ r,
        backtrack fuel (zeroGrid rowSums.length colSums.length) rowSums colSums
          forcedBlanks 0 0 = Except.ok r ∧
        backtrackNoPrune fuel (zeroGrid rowSums.length colSums.length) rowSums colSums
          forcedBlanks 0 0 = Except.ok r) := by
  refine ⟨fun fuel1 fuel2 r1 r2 h1 h2 => noPrune_same hv h1 h2, ?_⟩
  intro fuel hfuel
  obtain ⟨b1, g1, h1, _⟩ := backtrack_returns hv _ (shape_zeroGrid _ _) hfuel
  have hspec := backtrackNoPrune_spec rowSums colSums forcedBlanks hv.1 hv.2 fuel _ 0 0
    (shape_zeroGrid _ _) (Nat.zero_le _) (Nat.zero_le _)
  rw [framesNeeded_start _ hv.1] at hspec
  obtain ⟨b2, g2, h2, _⟩ := spec_returns hspec hfuel
  have := noPrune_same hv h1 h2
  exact ⟨(b1, g1), h1, by rw [this]; exact h2⟩

/-- C13 as stated fails: there is no shape-valid instance on which `backtrack`
and the variant without the reset, both run from `(0,0)` on the all-zero grid,
return different verdicts or, the verdict being true, different grids. -/
theorem reset_never_changes_result :
    ¬ ∃ (rowSums colSums : List Int) (forcedBlanks : List (List Bool))
        (fuel1 fuel2 : Nat) (b1 b2 : Bool) (g1 g2 : Grid),
      ShapeValid rowSums colSums forcedBlanks ∧
      backtrack fuel1 (zeroGrid rowSums.length colSums.length) rowSums colSums
        forcedBlanks 0 0 = Except.ok (b1, g1) ∧
      backtrackNoReset fuel2 (zeroGrid rowSums.length colSums.length) rowSums colSums
        forcedBlanks 0 0 = Except.ok (b2, g2) ∧
      (b1 ≠ b2 ∨ (b1 = true ∧ g1 ≠ g2)) := by
  rintro ⟨rs, cs, fb, fuel1, fuel2, b1, b2, g1, g2, hv, h1, h2, hdiff⟩
  obtain ⟨e1, e2⟩ := noReset_same hv h1 h2
  rcases hdiff with hd | ⟨hb, hd⟩
  · exact hd e1
  · exact hd (e2 hb)

/-- C13 (amended).  On every shape-valid instance, `backtrack` and the variant
without the reset, run from `(0,0)` on the all-zero grid, return the same verdict
and, when it is true, the same grid, and both return with `R*(C+1)+1` stack
frames; the reset only shows in the grid left after a false verdict: on
`rowSums = [5]`, `colSums = [2,2]` `backtrack` leaves `[[0,0]]` and the variant
leaves `[[3,3]]`. -/
theorem reset_only_affects_failed_grid :
    (∀ (rowSums colSums : List Int) (forcedBlanks : List (List Bool)),
      ShapeValid rowSums colSums forcedBlanks →
      (∀ fuel1 fuel2 b1 b2 g1 g2,
        backtrack fuel1 (zeroGrid rowSums.length colSums.length) rowSums colSums
          forcedBlanks 0 0 = Except.ok (b1, g1) →
        backtrackNoReset fuel2 (zeroGrid rowSums.length colSums.length) rowSums colSums
          forcedBlanks 0 0 = Except.ok (b2, g2) →
        b1 = b2 ∧ (b1 = true → g1 = g2)) ∧
      (∀ fuel, rowSums.length * (colSums.length + 1) + 1 ≤ fuel →
        ∃ b g1 g2,
          backtrack fuel (zeroGrid rowSums.length colSums.length) rowSums colSums
            forcedBlanks 0 0 = Except.ok (b, g1) ∧
          backtrackNoReset fuel (zeroGrid rowSums.length colSums.length) rowSums colSums
            forcedBlanks 0 0 = Except.ok (b, g2) ∧
          (b = true → g1 = g2))) ∧
    (ShapeValid [5] [2, 2] [[false, false]] ∧
      backtrack 4 (zeroGrid 1 2) [5] [2, 2] [[false, false]] 0 0
        = Except.ok (false, [[0, 0]]) ∧
      backtrackNoReset 4 (zeroGrid 1 2) [5] [2, 2] [[false, false]] 0 0
        = Except.ok (false, [[3, 3]])) := by
  refine ⟨?_, by decide, rfl, rfl⟩
  intro rs cs fb hv
  refine ⟨fun fuel1 fuel2 b1 b2 g1 g2 h1 h2 => noReset_same hv h1 h2, ?_⟩
  intro fuel hfuel
  obtain ⟨b1, g1, h1, _⟩ := backtrack_returns hv _ (shape_zeroGrid _ _) hfuel
  obtain ⟨b2, g2, h2⟩ := noReset_returns hv hfuel
  obtain ⟨e1, e2⟩ := noReset_same hv h1 h2
  subst e1
  exact ⟨b1, g1, g2, h1, h2, e2⟩

/-- C14 as stated fails: on the 1×1 instance `rowSums = [0]`, `colSums = [0]`
the solve from `(0,0)` runs out of stack with `R*C = 1` frames, and with 2; it
returns with 3. -/
theorem depth_exceeds_cell_count :
    ShapeValid [0] [0] [[false]] ∧
    ¬ DepthAtMost (1 * 1) (zeroGrid 1 1) [0] [0] [[false]] 0 0 ∧
    ¬ DepthAtMost 2 (zeroGrid 1 1) [0] [0] [[false]] 0 0 ∧
    backtrack 3 (zeroGrid 1 1) [0] [0] [[false]] 0 0 = Except.ok (true, [[0]]) :=
  ⟨by decide, fun h => h rfl, fun h => h rfl, rfl⟩

/-- C14 (amended).  On a shape-valid `R×C` instance the solve started at `(0,0)`
on the all-zero grid has at most `R*(C+1)+1` calls of `backtrack` active at any
one time (one per cell, one per end of row, one for the end of the grid), and
when the instance has a valid solution it reaches exactly that depth. -/
theorem depth_bound (rowSums colSums : List Int) (forcedBlanks : List (List Bool))
    (hv : ShapeValid rowSums colSums forcedBlanks) :
    (∀ fuel, rowSums.length * (colSums.length + 1) + 1 ≤ fuel →
      DepthAtMost fuel (zeroGrid rowSums.length colSums.length) rowSums colSums
        forcedBlanks 0 0) ∧
    ((∃ s, ValidSolution rowSums colSums forcedBlanks s) →
      ∀ fuel, fuel < rowSums.length * (colSums.length + 1) + 1 →
        ¬ DepthAtMost fuel (zeroGrid rowSums.length colSums.length) rowSums colSums
          forcedBlanks 0 0) := by
  constructor
  · intro fuel hfuel h
    obtain ⟨b, g2, hres, _⟩ := backtrack_returns hv _ (shape_zeroGrid _ _) hfuel
    rw [hres] at h
    cases h
  · rintro ⟨s, hs⟩ fuel hfuel hdepth
    apply hdepth
    rcases backtrack_spec rowSums colSums forcedBlanks hv.1 hv.2 fuel _ 0 0
      (shape_zeroGrid _ _) (Nat.zero_le _) (Nat.zero_le _) with ⟨b, g2, hres, hp⟩ | ⟨hres, _⟩
    · exfalso
      cases b with
      | true =>
        have := backtrack_true_frames rowSums colSums forcedBlanks hv.1 hv.2 fuel _ g2 0 0
          (shape_zeroGrid _ _) (Nat.zero_le _) (Nat.zero_le _) hres
        rw [framesNeeded_start _ hv.1] at this
        omega
      | false =>
        exact (hp.2.2.2 rfl).1 s (agreeBefore_start _ _ _ _)
          ((validSolution_iff _ _ _ _).mp hs)
    · exact hres

/-- C15 (terminal check).  Called with `row = len(grid)` on a grid of `R > 0` rows
of `len(colSums)` cells each whose column sums fit in an `int`, with any column
cursor, any row sums and any mask, `backtrack` returns true exactly when every
column sums to its target, and leaves the grid unchanged; the row sums and the
mask play no part.  On such a grid the sum Go forms for a column, adding with
64-bit wrap-around, is the column's exact sum. -/
theorem backtrack_end_of_grid (grid : Grid) (rowSums colSums : List Int)
    (forcedBlanks : List (List Bool)) (col fuel : Nat)
    (hR : 0 < grid.length) (hg : Shape grid grid.length colSums.length)
    (hfit : ∀ c < colSums.length, FitsInt (colSum grid c)) :
    (∃ b, backtrack (fuel + 1) grid rowSums colSums forcedBlanks grid.length col
        = Except.ok (b, grid) ∧
      (b = true ↔ ∀ c < colSums.length, colSum grid c = colSums.getD c 0)) ∧
    (∀ rowSums2 forcedBlanks2 col2,
      backtrack (fuel + 1) grid rowSums2 colSums forcedBlanks2 grid.length col2
        = backtrack (fuel + 1) grid rowSums colSums forcedBlanks grid.length col) ∧
    (∀ c < colSums.length,
      sumInts64 (grid.map fun row => row.getD c 0) = colSum grid c) := by
  obtain ⟨b, hb, hiff⟩ := checkColSums_eq hg colSums rfl colSums.length 0 (by omega)
  have hrun : ∀ rs2 fb2 col2,
      backtrack (fuel + 1) grid rs2 colSums fb2 grid.length col2 = Except.ok (b, grid) := by
    intro rs2 fb2 col2
    rw [backtrack]
    simp only [index_row hg hR, Except.bind, shape_row hg hR, if_true, hb]
  refine ⟨⟨b, hrun _ _ _, ?_⟩, fun rs2 fb2 col2 => by rw [hrun, hrun], ?_⟩
  · rw [hiff]
    constructor
    · intro h c hc
      exact h c (Nat.zero_le c) (by omega)
    · intro h c _ hc
      exact h c (by omega)
  · intro c hc
    have h := hfit c hc
    unfold colSum at h ⊢
    rw [← sumInts_eq_sum] at h ⊢
    exact sumInts64_of_fits h

/-- C16 (failure restores the grid).  On a shape-valid instance, for every cursor
`(row, col)` and every grid of the instance's shape that holds 0 at every cell at
or after the cursor, a call of `backtrack` that returns false leaves the grid as
it found it; in particular a solve from `(0,0)` on the all-zero grid that returns
false leaves the all-zero grid. -/
theorem backtrack_failure_restores (rowSums colSums : List Int)
    (forcedBlanks : List (List Bool)) (grid g2 : Grid) (row col fuel : Nat)
    (hv : ShapeValid rowSums colSums forcedBlanks)
    (hg : Shape grid rowSums.length colSums.length)
    (hzero : ∀ r < rowSums.length, ∀ c < colSums.length,
      ¬ Before r c row col → cell grid r c = 0)
    (h : backtrack fuel grid rowSums colSums forcedBlanks row col = Except.ok (false, g2)) :
    g2 = grid ∧
    (∀ fuel2 g3, backtrack fuel2 (zeroGrid rowSums.length colSums.length) rowSums colSums
        forcedBlanks 0 0 = Except.ok (false, g3) →
      g3 = zeroGrid rowSums.length colSums.length) := by
  constructor
  · have hp := backtrack_post_any rowSums colSums forcedBlanks hv.1 hv.2 hg h
    apply grid_ext hp.1 hg
    intro r hr c hc
    by_cases hb : Before r c row col
    · exact hp.2.1 r hr c hc hb
    · rcases (hp.2.2.2 rfl).2 r hr c hc with h1 | h1
      · exact h1
      · rw [h1, hzero r hr c hc hb]
  · intro fuel2 g3 h3
    have hp := backtrack_post hv (shape_zeroGrid _ _) h3
    exact eq_zeroGrid_of_sameOrZero hp.1 (hp.2.2.2 rfl).2

/-- C17 (prefix frame).  On a shape-valid instance, for every cursor
`(row, col)` and every grid of the instance's shape, a call of `backtrack` that
returns, with either verdict, leaves a grid of the same shape that holds at
every cell before the cursor what it held on entry; and none of the
assignments the call executes targets a cell before the cursor. -/
theorem backtrack_prefix_frame (rowSums colSums : List Int)
    (forcedBlanks : List (List Bool)) (grid g2 : Grid) (row col fuel : Nat) (b : Bool)
    (hv : ShapeValid rowSums colSums forcedBlanks)
    (hg : Shape grid rowSums.length colSums.length)
    (h : backtrack fuel grid rowSums colSums forcedBlanks row col = Except.ok (b, g2)) :
    Shape g2 rowSums.length colSums.length ∧
    (∀ r < rowSums.length, ∀ c < colSums.length,
      Before r c row col → cell g2 r c = cell grid r c) ∧
    (∃ writes, backtrackLog fuel grid rowSums colSums forcedBlanks row col
        = Except.ok (b, g2, writes) ∧
      ∀ w ∈ writes, ¬ Before w.row w.col row col) := by
  have hp := backtrack_post_any rowSums colSums forcedBlanks hv.1 hv.2 hg h
  refine ⟨hp.1, hp.2.1, ?_⟩
  have he := backtrackLog_erase rowSums colSums forcedBlanks fuel grid row col
  have hw := backtrackLog_positions rowSums colSums forcedBlanks fuel grid row col
  cases hl : backtrackLog fuel grid rowSums colSums forcedBlanks row col with
  | error e =>
    rw [hl, h] at he
    cases he
  | ok res =>
    rw [hl] at hw
    rw [hl, h] at he
    obtain ⟨b2, grid2, writes⟩ := res
    simp only [eraseLog, Except.ok.injEq, Prod.mk.injEq] at he
    rw [he.1, he.2]
    exact ⟨writes, rfl, hw⟩

/-! ## The claims at concrete instances -/

/-- C1 at `rowSums = [3,3]`, `colSums = [3,3]`, no forced cell. -/
theorem backtrack_sound_witness :
    ShapeValid [3, 3] [3, 3] [[false, false], [false, false]] ∧
    backtrack 7 (zeroGrid 2 2) [3, 3] [3, 3] [[false, false], [false, false]] 0 0
      = Except.ok (true, [[0, 3], [3, 0]]) ∧
    (Shape ([[0, 3], [3, 0]] : Grid) 2 2 ∧
      (∀ r < 2, rowSum [[0, 3], [3, 0]] r = [3, 3].getD r 0) ∧
      (∀ c < 2, colSum [[0, 3], [3, 0]] c = [3, 3].getD c 0)) :=
  ⟨by decide, rfl,
    backtrack_sound [3, 3] [3, 3] [[false, false], [false, false]] 7 [[0, 3], [3, 0]]
      (by decide) rfl⟩

/-- C2 at `rowSums = [4,5]`, `colSums = [3,3,3]`, cell `(0,1)` forced, with the
valid solution `[[3,0,1],[0,3,2]]`. -/
theorem backtrack_complete_witness :
    ShapeValid [4, 5] [3, 3, 3] [[false, true, false], [false, false, false]] ∧
    ValidSolution [4, 5] [3, 3, 3] [[false, true, false], [false, false, false]]
      [[3, 0, 1], [0, 3, 2]] ∧
    (∃ grid, backtrack 9 (zeroGrid 2 3) [4, 5] [3, 3, 3]
      [[false, true, false], [false, false, false]] 0 0 = Except.ok (true, grid)) :=
  ⟨by decide, by decide,
    (backtrack_complete [4, 5] [3, 3, 3] [[false, true, false], [false, false, false]]
      [[3, 0, 1], [0, 3, 2]] (by decide) (by decide)).1 9 (by decide)⟩

/-- C3 at `rowSums = [2,1]`, `colSums = [1,2]`, cell `(0,0)` forced. -/
theorem backtrack_forced_zero_witness :
    ShapeValid [2, 1] [1, 2] [[true, false], [false, false]] ∧
    backtrack 7 (zeroGrid 2 2) [2, 1] [1, 2] [[true, false], [false, false]] 0 0
      = Except.ok (true, [[0, 2], [1, 0]]) ∧
    forcedAt [[true, false], [false, false]] 0 0 = true ∧
    cell [[0, 2], [1, 0]] 0 0 = 0 :=
  ⟨by decide, rfl, rfl,
    backtrack_forced_zero [2, 1] [1, 2] [[true, false], [false, false]] 7 [[0, 2], [1, 0]]
      (by decide) rfl 0 (by decide) 0 (by decide) rfl⟩

/-- C4 at `rowSums = [3,3]`, `colSums = [3,3]`, no forced cell, against the valid
solution `[[3,0],[0,3]]`. -/
theorem backtrack_lex_min_witness :
    ShapeValid [3, 3] [3, 3] [[false, false], [false, false]] ∧
    backtrack 7 (zeroGrid 2 2) [3, 3] [3, 3] [[false, false], [false, false]] 0 0
      = Except.ok (true, [[0, 3], [3, 0]]) ∧
    ValidSolution [3, 3] [3, 3] [[false, false], [false, false]] [[3, 0], [0, 3]] ∧
    ([[0, 3], [3, 0]] : Grid).flatten ≤ ([[3, 0], [0, 3]] : Grid).flatten :=
  ⟨by decide, rfl, by decide,
    backtrack_lex_min [3, 3] [3, 3] [[false, false], [false, false]] 7 [[0, 3], [3, 0]]
      [[3, 0], [0, 3]] (by decide) rfl (by decide)⟩

/-- C5 at the scenario `R = 1`, `C = 2`, `rowSums = [5]`, `colSums = [2,2]`. -/
theorem sum_mismatch_infeasible_witness :
    ShapeValid [5] [2, 2] [[false, false]] ∧
    sumInts [5] ≠ sumInts [2, 2] ∧
    sumInts64 [5] ≠ sumInts64 [2, 2] ∧
    backtrack 4 (zeroGrid 1 2) [5] [2, 2] [[false, false]] 0 0
      = Except.ok (false, zeroGrid 1 2) ∧
    solvePuzzle 0 [2, 2] [5] [[48, 48]] = Outcome.sumMismatch :=
  ⟨by decide, by decide, by decide,
    ((sum_mismatch_infeasible [5] [2, 2]).1 [[false, false]] (by decide) (by decide)).2 4
      (by decide),
    (sum_mismatch_infeasible [5] [2, 2]).2.1 (by decide) 0 [[48, 48]]⟩

/-- C6 at `rowSums = [2,1]`, `colSums = [1,2]`, cell `(0,0)` forced. -/
theorem backtrack_values_witness :
    ShapeValid [2, 1] [1, 2] [[true, false], [false, false]] ∧
    backtrack 7 (zeroGrid 2 2) [2, 1] [1, 2] [[true, false], [false, false]] 0 0
      = Except.ok (true, [[0, 2], [1, 0]]) ∧
    (∀ r < 2, ∀ c < 2, 0 ≤ cell [[0, 2], [1, 0]] r c ∧ cell [[0, 2], [1, 0]] r c ≤ 3) ∧
    (∃ writes, backtrackLog 7 (zeroGrid 2 2) [2, 1] [1, 2] [[true, false], [false, false]] 0 0
        = Except.ok (true, [[0, 2], [1, 0]], writes) ∧
      ∀ w ∈ writes, 0 ≤ w.val ∧ w.val ≤ 3) :=
  ⟨by decide, rfl,
    (backtrack_values [2, 1] [1, 2] [[true, false], [false, false]] (by decide)).1 7
      [[0, 2], [1, 0]] rfl,
    (backtrack_values [2, 1] [1, 2] [[true, false], [false, false]] (by decide)).2 7
      (zeroGrid 2 2) 0 0 true [[0, 2], [1, 0]] rfl⟩

/-- C7 at the three scenarios: `[0]`,`[0]` unforced gives `[[0]]`; `[3]`,`[3]`
unforced gives `[[3]]`; `[3]`,`[3]` with `(0,0)` forced returns false. -/
theorem backtrack_one_by_one_witness :
    backtrack 3 [[0]] [0] [0] [[false]] 0 0 = Except.ok (true, [[0]]) ∧
    backtrack 3 [[0]] [3] [3] [[false]] 0 0 = Except.ok (true, [[3]]) ∧
    backtrack 3 [[0]] [3] [3] [[true]] 0 0 = Except.ok (false, [[0]]) :=
  ⟨backtrack_one_by_one 0 0 false 3 le_rfl,
    backtrack_one_by_one 3 3 false 3 le_rfl,
    backtrack_one_by_one 3 3 true 3 le_rfl⟩

/-- C9 at a 1×2 instance with a negative and a huge target and a grid holding
arbitrary integers. -/
theorem backtrack_no_panic_witness :
    ShapeValid [-5] [100000000000000000000, 1] [[false, true]] ∧
    Shape ([[7, -2]] : Grid) 1 2 ∧
    (∀ fuel, backtrack fuel [[7, -2]] [-5] [100000000000000000000, 1] [[false, true]] 0 0
      ≠ Except.error Fault.indexOutOfRange) ∧
    (∃ b g2, backtrack 4 [[7, -2]] [-5] [100000000000000000000, 1] [[false, true]] 0 0
      = Except.ok (b, g2)) :=
  ⟨by decide, by decide,
    (backtrack_no_panic [-5] [100000000000000000000, 1] [[false, true]] [[7, -2]]
      (by decide) (by decide)).1,
    (backtrack_no_panic [-5] [100000000000000000000, 1] [[false, true]] [[7, -2]]
      (by decide) (by decide)).2.1 4 (by decide)⟩

/-- C10 at `rowSums = [3,3]`, `colSums = [3,3]`: the all-zero grid against the
grid a previous solve left, and against a grid of arbitrary integers. -/
theorem backtrack_independent_of_grid_witness :
    ShapeValid [3, 3] [3, 3] [[false, false], [false, false]] ∧
    Shape (zeroGrid 2 2) 2 2 ∧ Shape ([[0, 3], [3, 0]] : Grid) 2 2 ∧
    (∃ b r1 r2,
      backtrack 7 (zeroGrid 2 2) [3, 3] [3, 3] [[false, false], [false, false]] 0 0
        = Except.ok (b, r1) ∧
      backtrack 7 [[0, 3], [3, 0]] [3, 3] [3, 3] [[false, false], [false, false]] 0 0
        = Except.ok (b, r2) ∧
      (b = true → r1 = r2)) :=
  ⟨by decide, by decide, by decide,
    (backtrack_independent_of_grid [3, 3] [3, 3] [[false, false], [false, false]]
      (zeroGrid 2 2) [[0, 3], [3, 0]] (by decide) (by decide) (by decide)).2 7 (by decide)⟩

/-- C11 at `rowSums = [3,3]`, `colSums = [3,3]`, cursor `(1,1)` on the grid
`[[0,3],[3,0]]`, which needs 3 frames. -/
theorem backtrack_terminates_witness :
    ShapeValid [3, 3] [3, 3] [[false, false], [false, false]] ∧
    Shape ([[0, 3], [3, 0]] : Grid) 2 2 ∧
    framesNeeded 2 2 1 1 ≤ 3 ∧
    (∃ b g2, backtrack 3 [[0, 3], [3, 0]] [3, 3] [3, 3] [[false, false], [false, false]] 1 1
      = Except.ok (b, g2)) :=
  ⟨by decide, by decide, by decide,
    (backtrack_terminates [3, 3] [3, 3] [[false, false], [false, false]] [[0, 3], [3, 0]]
      1 1 3 (by decide) (by decide) (by decide) (by decide) (by decide)).1⟩

/-- C12 at `rowSums = [3,3]`, `colSums = [3,3]`, no forced cell, with 7 frames. -/
theorem pruning_is_optimisation_witness :
    ShapeValid [3, 3] [3, 3] [[false, false], [false, false]] ∧
    (∃ r,
      backtrack 7 (zeroGrid 2 2) [3, 3] [3, 3] [[false, false], [false, false]] 0 0
        = Except.ok r ∧
      backtrackNoPrune 7 (zeroGrid 2 2) [3, 3] [3, 3] [[false, false], [false, false]] 0 0
        = Except.ok r) :=
  ⟨by decide,
    (pruning_is_optimisation [3, 3] [3, 3] [[false, false], [false, false]] (by decide)).2 7
      (by decide)⟩

/-- C13 (amended) at `rowSums = [2,1]`, `colSums = [1,2]`, cell `(0,0)` forced. -/
theorem reset_only_affects_failed_grid_witness :
    ShapeValid [2, 1] [1, 2] [[true, false], [false, false]] ∧
    (∃ b g1 g2,
      backtrack 7 (zeroGrid 2 2) [2, 1] [1, 2] [[true, false], [false, false]] 0 0
        = Except.ok (b, g1) ∧
      backtrackNoReset 7 (zeroGrid 2 2) [2, 1] [1, 2] [[true, false], [false, false]] 0 0
        = Except.ok (b, g2) ∧
      (b = true → g1 = g2)) :=
  ⟨by decide,
    (reset_only_affects_failed_grid.1 [2, 1] [1, 2] [[true, false], [false, false]]
      (by decide)).2 7 (by decide)⟩

/-- C14 (amended) at `rowSums = [3,3]`, `colSums = [3,3]`, which has the solution
`[[3,0],[0,3]]`: 7 frames are enough and 6 are not. -/
theorem depth_bound_witness :
    ShapeValid [3, 3] [3, 3] [[false, false], [false, false]] ∧
    ValidSolution [3, 3] [3, 3] [[false, false], [false, false]] [[3, 0], [0, 3]] ∧
    DepthAtMost 7 (zeroGrid 2 2) [3, 3] [3, 3] [[false, false], [false, false]] 0 0 ∧
    ¬ DepthAtMost 6 (zeroGrid 2 2) [3, 3] [3, 3] [[false, false], [false, false]] 0 0 :=
  ⟨by decide, by decide,
    (depth_bound [3, 3] [3, 3] [[false, false], [false, false]] (by decide)).1 7 (by decide),
    (depth_bound [3, 3] [3, 3] [[false, false], [false, false]] (by decide)).2
      ⟨[[3, 0], [0, 3]], by decide⟩ 6 (by decide)⟩

/-- C15 at the grid `[[1,2],[2,1]]` with `colSums = [3,3]` and row sums `[0,0]`
that no row has. -/
theorem backtrack_end_of_grid_witness :
    0 < ([[1, 2], [2, 1]] : Grid).length ∧
    Shape ([[1, 2], [2, 1]] : Grid) 2 2 ∧
    (∀ c < 2, FitsInt (colSum [[1, 2], [2, 1]] c)) ∧
    (∃ b, backtrack 1 [[1, 2], [2, 1]] [0, 0] [3, 3] [[false, false], [false, false]] 2 0
        = Except.ok (b, [[1, 2], [2, 1]]) ∧
      (b = true ↔ ∀ c < 2, colSum [[1, 2], [2, 1]] c = [3, 3].getD c 0)) :=
  ⟨by decide, by decide, by decide,
    (backtrack_end_of_grid [[1, 2], [2, 1]] [0, 0] [3, 3] [[false, false], [false, false]]
      0 0 (by decide) (by decide) (by decide)).1⟩

/-- C16 at `rowSums = [5]`, `colSums = [2,2]`, cursor `(0,1)` on the grid
`[[2,0]]`. -/
theorem backtrack_failure_restores_witness :
    ShapeValid [5] [2, 2] [[false, false]] ∧
    Shape ([[2, 0]] : Grid) 1 2 ∧
    (∀ r < 1, ∀ c < 2, ¬ Before r c 0 1 → cell [[2, 0]] r c = 0) ∧
    backtrack 3 [[2, 0]] [5] [2, 2] [[false, false]] 0 1 = Except.ok (false, [[2, 0]]) ∧
    ([[2, 0]] : Grid) = [[2, 0]] :=
  ⟨by decide, by decide, by decide, rfl,
    (backtrack_failure_restores [5] [2, 2] [[false, false]] [[2, 0]] [[2, 0]] 0 1 3
      (by decide) (by decide) (by decide) rfl).1⟩

/-- C17 at `rowSums = [3,3]`, `colSums = [3,3]`, cursor `(1,0)` on the grid
`[[0,3],[7,7]]`. -/
theorem backtrack_prefix_frame_witness :
    ShapeValid [3, 3] [3, 3] [[false, false], [false, false]] ∧
    Shape ([[0, 3], [7, 7]] : Grid) 2 2 ∧
    backtrack 4 [[0, 3], [7, 7]] [3, 3] [3, 3] [[false, false], [false, false]] 1 0
      = Except.ok (true, [[0, 3], [3, 0]]) ∧
    (∀ r < 2, ∀ c < 2, Before r c 1 0 →
      cell [[0, 3], [3, 0]] r c = cell [[0, 3], [7, 7]] r c) :=
  ⟨by decide, by decide, rfl,
    (backtrack_prefix_frame [3, 3] [3, 3] [[false, false], [false, false]]
      [[0, 3], [7, 7]] [[0, 3], [3, 0]] 1 0 4 true (by decide) (by decide) rfl).2.1⟩

end PuzzleSolver
